import Mathlib

/-!
Pinch detection (stuntgoat/pinch, `pinch.go`): a shallow embedding.

Modelling conventions.

* `float64` coordinates and distances are exact rationals (`ℚ`): rounding, NaN and
  infinities are abstracted away. Where a property depends on rounding (the midpoint of
  `Halfway`), `round64` and `Halfway64` give the rounded `float64` operations.
* Go maps (`map[int]*MyPointable`, `map[int]*PPH`) are association lists with unique keys;
  the order of the list stands for the (unspecified) iteration order of the map.
* `time.Time` is an integer number of nanoseconds; every signal handled by a hand tracker
  reads the clock once, the instant `now` of that signal.
* `logger.Fatal` ends the process: functions that can reach it return `Option`, and `none`
  is the fatal exit.
* Channels are synchronous hand-offs: the router is modelled by the trace of the messages it
  sends, the trackers by the function that handles one message.
-/

namespace PinchGo

/-! ## Constants (pinch.go 15-32) -/

/-- Threshold between 2 pointables to register a pinch (compared against a `float64`). -/
def PINCH_DISTANCE_THRESHOLD : ℚ := 1900

/-- Number of previous pointable objects stored per finger. -/
def MAX_POINTABLES_PER_HISTORY : Nat := 15

/-- Number of tolerated increases of the distance when checking convergence. -/
def CONVERGENCE_THRESHOLD : Nat := 6

/-- The 50 ms window of line 164, in nanoseconds. -/
def RECENT_WINDOW : Int := 50 * 1000000

/-- The 60 ms window of line 227, in nanoseconds. -/
def STALE_WINDOW : Int := 60 * 1000000

/-! ## External types -/

/-- The fields of `gomotion.Pointable` that the program reads. -/
structure Pointable where
  Id : Int
  HandId : Int
  TipPosition : ℚ × ℚ × ℚ
deriving DecidableEq

/-- Modelled from the spec: the circular buffer `circbuf.Circ` (an external package, known
only by its contract): a bounded sequence that overwrites its oldest item at capacity, is
read by offset from either end, and counts every item ever added. `items` holds the
retained items, oldest first. -/
structure Circ where
  size : Nat
  items : List Pointable
  Added : Nat
deriving DecidableEq

/-- Modelled from the spec: `circbuf.NewCircBuf(size)`, an empty buffer. -/
def NewCircBuf (size : Nat) : Circ :=
  { size := size, items := [], Added := 0 }

/-- Modelled from the spec: `Circ.AddItem`, "adds one sample, overwriting the oldest when at
capacity, increments totalAdded". -/
def Circ.AddItem (c : Circ) (p : Pointable) : Circ :=
  { c with
    items := (c.items ++ [p]).drop (c.items.length + 1 - c.size)
    Added := c.Added + 1 }

/-- Modelled from the spec: `Circ.ReadFromStart(offset)`, the item at that offset counted
from the oldest retained item; out of range (`none`) when `offset ≥ occupancy`. -/
def Circ.ReadFromStart (c : Circ) (offset : Nat) : Option Pointable :=
  c.items.get? offset

/-- Modelled from the spec: `Circ.ReadFromEnd(offset)`, the item at that offset counted
back from the most recent one; out of range (`none`) when `offset ≥ occupancy`. -/
def Circ.ReadFromEnd (c : Circ) (offset : Nat) : Option Pointable :=
  if offset < c.items.length then c.items.get? (c.items.length - 1 - offset) else none

/-- The buffer obtained from `NewCircBuf size` by adding the items of `ps` in order. -/
def Circ.ofAdds (size : Nat) (ps : List Pointable) : Circ :=
  ps.foldl Circ.AddItem (NewCircBuf size)

/-! ## Geometry (pinch.go 334-358) -/

def XYZFromPointable (p : Pointable) : ℚ × ℚ × ℚ :=
  (p.TipPosition.1, p.TipPosition.2.1, p.TipPosition.2.2)

/-- Sum of the squares of the per-axis differences. -/
def DistanceBetween (x y z x2 y2 z2 : ℚ) : ℚ :=
  let xSqDiff := (x - x2) ^ 2
  let ySqDiff := (y - y2) ^ 2
  let zSqDiff := (z - z2) ^ 2
  xSqDiff + ySqDiff + zSqDiff

def DistanceBetweenPointables (pointable1 pointable2 : Pointable) : ℚ :=
  let (p1X, p1Y, p1Z) := XYZFromPointable pointable1
  let (p2X, p2Y, p2Z) := XYZFromPointable pointable2
  DistanceBetween p1X p1Y p1Z p2X p2Y p2Z

/-- The coordinate between 2 coordinates in the same dimension. -/
def Halfway (a b : ℚ) : ℚ :=
  a + (1 / 2) * (b - a)

/-- A pinch event in 3 dimensional space for a particular hand. -/
structure Pinch where
  X : ℚ
  Y : ℚ
  Z : ℚ
  HandId : Int
deriving DecidableEq

/-- The `Pinch` that `SetFrom2Pointables` fills in from two pointables (lines 323-331). -/
def SetFrom2Pointables (p1 p2 : Pointable) : Pinch :=
  let (p1X, p1Y, p1Z) := XYZFromPointable p1
  let (p2X, p2Y, p2Z) := XYZFromPointable p2
  { X := Halfway p1X p2X
    Y := Halfway p1Y p2Y
    Z := Halfway p1Z p2Z
    HandId := p1.HandId }

/-! ## MyPointable and the convergence test (pinch.go 43-104) -/

/-- A circular buffer of pointables and the instant of its last update. -/
structure MyPointable where
  History : Circ
  lastUpdate : Int
deriving DecidableEq

/-- The bound `maxCount` of the loop, lines 62-76. The variable `max` is declared on line
65 and never assigned. -/
def maxCount (mp p : MyPointable) : Nat :=
  let p1Len := mp.History.Added
  let p2Len := p.History.Added
  let max : Nat := 0
  let maxCount := if p1Len = p2Len ∨ p1Len < p2Len then p1Len else p2Len
  if max > MAX_POINTABLES_PER_HISTORY then MAX_POINTABLES_PER_HISTORY else maxCount

/-- The values taken by `i` in `for i := 0; i < maxCount; i += 2`. -/
def loopOffsets (maxCount : Nat) : List Nat :=
  (List.range maxCount).filter (fun i => i % 2 = 0)

/-- The variables `dLast` and `failThreshold` carried around the loop. -/
structure WalkState where
  dLast : ℚ
  failThreshold : Nat
deriving DecidableEq

/-- One iteration of the loop body, lines 79-94; `none` is the `logger.Fatal` of line 88,
reached when a read brings back nothing to cast. -/
def walkBody (mp p : MyPointable) (s : WalkState) (i : Nat) : Option WalkState :=
  match mp.History.ReadFromStart i, p.History.ReadFromStart i with
  | some myAp, some myBp =>
    let dCurrent := DistanceBetweenPointables myAp myBp
    some { dLast := dCurrent
           failThreshold :=
             if s.dLast < dCurrent ∧ s.dLast ≠ 0 then s.failThreshold + 1
             else s.failThreshold }
  | _, _ => none

/-- The loop of lines 78-95 over the offsets it visits. -/
def convergenceWalk (mp p : MyPointable) : List Nat → WalkState → Option WalkState
  | [], s => some s
  | i :: rest, s =>
    match walkBody mp p s i with
    | none => none
    | some s' => convergenceWalk mp p rest s'

/-- The convergence test `mp.CalculateConvergence(p)`; `none` is the fatal exit. -/
def CalculateConvergence (mp p : MyPointable) : Option Bool :=
  match convergenceWalk mp p (loopOffsets (maxCount mp p)) { dLast := 0, failThreshold := 0 } with
  | none => none
  | some s => if s.failThreshold > CONVERGENCE_THRESHOLD then some false else some true

/-! ## The distances met by the walk -/

/-- The squared distances between the two histories at the given offsets, when every one
of these offsets holds a sample in both. -/
def sampledDistances (mp p : MyPointable) : List Nat → Option (List ℚ)
  | [] => some []
  | i :: rest =>
    match mp.History.ReadFromStart i, p.History.ReadFromStart i with
    | some a, some b =>
      match sampledDistances mp p rest with
      | some ds => some (DistanceBetweenPointables a b :: ds)
      | none => none
    | _, _ => none

/-- The number of distances of the list that are strictly greater than a non-zero distance
right before them, `dLast` standing before the first. -/
def countRegressions : ℚ → List ℚ → Nat
  | _, [] => 0
  | dLast, d :: rest =>
    (if dLast < d ∧ dLast ≠ 0 then 1 else 0) + countRegressions d rest

/-! ## Sample data -/

/-- The history of finger `id` of hand `hand` after it was seen at the positions `ps`, in
order, last at instant `now`. -/
def fingerHistory (id hand : Int) (ps : List (ℚ × ℚ × ℚ)) (now : Int) : MyPointable :=
  { History := Circ.ofAdds MAX_POINTABLES_PER_HISTORY
      (ps.map (fun pos => { Id := id, HandId := hand, TipPosition := pos }))
    lastUpdate := now }

/-- Finger 10 of hand 1 stays at the origin for `n` samples. -/
def stillFinger (n : Nat) (now : Int) : MyPointable :=
  fingerHistory 10 1 ((List.range n).map (fun _ => (0, 0, 0))) now

/-- Finger 11 of hand 1 moves along the x axis, sample `k` at `100 - k`. -/
def approachingFinger (n : Nat) (now : Int) : MyPointable :=
  fingerHistory 11 1 ((List.range n).map (fun k => (100 - (k : ℚ), 0, 0))) now

/-- Finger 11 of hand 1 stays at `pos` for 6 samples. -/
def restingFinger (pos : ℚ × ℚ × ℚ) (now : Int) : MyPointable :=
  fingerHistory 11 1 ((List.range 6).map (fun _ => pos)) now

/-! ## Go maps as association lists -/

/-- The value stored under key `k`, as in `v, ok := m[k]`. -/
def mapLookup {β : Type} (k : Int) : List (Int × β) → Option β
  | [] => none
  | e :: rest => if e.1 = k then some e.2 else mapLookup k rest

/-- The assignment `m[k] = v`: replaces the value of an existing key, adds a new key. -/
def mapInsert {β : Type} (k : Int) (v : β) : List (Int × β) → List (Int × β)
  | [] => [(k, v)]
  | e :: rest => if e.1 = k then (k, v) :: rest else e :: mapInsert k v rest

/-! ## The hand tracker (pinch.go 107-232) -/

/-- The state of one hand: its id, finger id to last update time, finger id to history. -/
structure HandPinchCheck where
  HandId : Int
  LastUpdate : List (Int × Int)
  Pointables : List (Int × MyPointable)
deriving DecidableEq

/-- What a tracker receives: a pointable on `PointableChan`, or a value on
`FingerDisappeared`. -/
inductive Signal where
  | pointable (p : Pointable)
  | fingerDisappeared
deriving DecidableEq

/-- The test of lines 164-166: updated less than 50 ms ago, and at least 6 items added. -/
def isCandidate (now : Int) (pntbl : MyPointable) : Bool :=
  let isNew := decide (now - pntbl.lastUpdate < RECENT_WINDOW)
  isNew && decide (pntbl.History.Added ≥ 6)

/-- The slice `pair` built by the loop of lines 161-175. -/
def collectPair (now : Int) (pointables : List (Int × MyPointable)) : List MyPointable :=
  (pointables.filter (fun e => isCandidate now e.2)).map (fun e => e.2)

/-- The block `REMOVE_OLD`, lines 225-230. -/
def removeOld (now : Int) (pointables : List (Int × MyPointable)) :
    List (Int × MyPointable) :=
  pointables.filter (fun e => !decide (now - e.2.lastUpdate > STALE_WINDOW))

/-- Lines 178-222 on the collected `pair`: `none` is a fatal exit, `some none` no pinch,
`some (some pinch)` the pinch sent on the pinch channel. -/
def checkPair (pair : List MyPointable) : Option (Option Pinch) :=
  match pair with
  | [a, b] =>
    match a.History.ReadFromEnd 0, b.History.ReadFromEnd 0 with
    | some goA, some goB =>
      let dist := DistanceBetweenPointables goA goB
      if dist < PINCH_DISTANCE_THRESHOLD then
        match CalculateConvergence a b with
        | none => none
        | some converging => if converging then some (some (SetFrom2Pointables goA goB)) else some none
      else some none
    | _, _ => none
  | _ => some none

/-- One turn of the loop of `ListenForPointables` (lines 140-231), handling the signal
received at instant `now`: the new state and the pinch sent, or `none` on a fatal exit. -/
def ListenForPointables (now : Int) (h : HandPinchCheck) :
    Signal → Option (HandPinchCheck × Option Pinch)
  | Signal.pointable p =>
    let myP : MyPointable :=
      match mapLookup p.Id h.Pointables with
      | some m => m
      | none => { History := NewCircBuf MAX_POINTABLES_PER_HISTORY, lastUpdate := 0 }
    let myP1 : MyPointable := { History := myP.History.AddItem p, lastUpdate := now }
    some ({ h with
            LastUpdate := mapInsert p.Id now h.LastUpdate
            Pointables := removeOld now (mapInsert p.Id myP1 h.Pointables) }, none)
  | Signal.fingerDisappeared =>
    match checkPair (collectPair now h.Pointables) with
    | none => none
    | some sent => some ({ h with Pointables := removeOld now h.Pointables }, sent)

/-! ## The router (pinch.go 235-312) -/

/-- Pointables per hand. -/
structure PPH where
  HandId : Int
  NumPointables : Nat
deriving DecidableEq

/-- A frame: the pointables of one sensor tick, in order. -/
abbrev Frame := List Pointable

/-- What the router does to the trackers: start one (`go hpc.ListenForPointables()`), send
a pointable on a hand's `PointableChan`, send on a hand's `FingerDisappeared`. -/
inductive Action where
  | spawn (handId : Int) (hpc : HandPinchCheck)
  | sendPointable (handId : Int) (p : Pointable)
  | sendDisappeared (handId : Int)
deriving DecidableEq

/-- The variables of `RouteHand`; `PinchChecks` maps a hand id to the `HandId` of the
tracker registered under it. -/
structure RouterState where
  currPerHand : List (Int × PPH)
  pastPerHand : List (Int × PPH)
  PinchChecks : List (Int × Int)
deriving DecidableEq

/-- The body of the inner loop, lines 263-298, for one pointable. -/
def routePointable (st : RouterState) (pointable : Pointable) : RouterState × List Action :=
  let handId := pointable.HandId
  if handId = -1 then (st, [])
  else
    let curr :=
      match mapLookup handId st.currPerHand with
      | some pph =>
        mapInsert handId { pph with NumPointables := pph.NumPointables + 1 } st.currPerHand
      | none =>
        mapInsert handId { HandId := handId, NumPointables := 0 + 1 } st.currPerHand
    match mapLookup handId st.PinchChecks with
    | some _ => ({ st with currPerHand := curr }, [Action.sendPointable handId pointable])
    | none =>
      let hpc : HandPinchCheck :=
        { HandId := pointable.HandId, LastUpdate := [], Pointables := [] }
      ({ st with currPerHand := curr
                 PinchChecks := mapInsert handId hpc.HandId st.PinchChecks },
       [Action.spawn handId hpc, Action.sendPointable handId pointable])

/-- The inner loop, lines 262-299. -/
def routePointables (st : RouterState) : List Pointable → RouterState × List Action
  | [] => (st, [])
  | p :: rest =>
    let r := routePointable st p
    let r1 := routePointables r.1 rest
    (r1.1, r.2 ++ r1.2)

/-- The loop of lines 302-308: the notifications sent after a frame. -/
def notifyDisappeared (pastPerHand currPerHand : List (Int × PPH)) : List Action :=
  pastPerHand.filterMap (fun e =>
    match mapLookup e.1 currPerHand with
    | some cHnum =>
      if cHnum.NumPointables < e.2.NumPointables then some (Action.sendDisappeared e.1)
      else none
    | none => none)

/-- One turn of the outer loop, lines 261-311, for one frame. -/
def routeFrame (st : RouterState) (frame : Frame) : RouterState × List Action :=
  let r := routePointables st frame
  let notes := notifyDisappeared r.1.pastPerHand r.1.currPerHand
  ({ r.1 with pastPerHand := r.1.currPerHand, currPerHand := [] }, r.2 ++ notes)

/-- The outer loop over a list of frames: the final state and, per frame, what was done. -/
def routeFrames (st : RouterState) : List Frame → RouterState × List (List Action)
  | [] => (st, [])
  | frame :: rest =>
    let r := routeFrame st frame
    let r1 := routeFrames r.1 rest
    (r1.1, r.2 :: r1.2)

/-- The state `RouteHand` starts in: no counts, no tracker registered. -/
def RouterState.init : RouterState :=
  { currPerHand := [], pastPerHand := [], PinchChecks := [] }

/-- The method `RouteHand` run on the frames received on `FrameChan`. -/
def RouteHand (frames : List Frame) : RouterState × List (List Action) :=
  routeFrames RouterState.init frames

/-! ## Router and trackers together -/

/-- The trackers started so far, each under the hand id it was registered with, the pinches
sent on the pinch channel (oldest first), and whether the process has stopped (a fatal exit,
or a send to a hand without a tracker, which blocks for ever). -/
structure Pipeline where
  trackers : List (Int × HandPinchCheck)
  emitted : List Pinch
  halted : Bool
deriving DecidableEq

/-- Nothing started, nothing sent. -/
def Pipeline.init : Pipeline :=
  { trackers := [], emitted := [], halted := false }

/-- The tracker registered under `handId` handles `sig` at instant `now`. -/
def deliver (now : Int) (pl : Pipeline) (handId : Int) (sig : Signal) : Pipeline :=
  match mapLookup handId pl.trackers with
  | none => { pl with halted := true }
  | some hpc =>
    match ListenForPointables now hpc sig with
    | none => { pl with halted := true }
    | some r =>
      { pl with
        trackers := mapInsert handId r.1 pl.trackers
        emitted := pl.emitted ++ r.2.toList }

/-- The effect of one router action handled at instant `now`. -/
def applyAction (now : Int) (pl : Pipeline) : Action → Pipeline
  | Action.spawn handId hpc => { pl with trackers := mapInsert handId hpc pl.trackers }
  | Action.sendPointable handId p => deliver now pl handId (Signal.pointable p)
  | Action.sendDisappeared handId => deliver now pl handId Signal.fingerDisappeared

/-- The actions are handled in order, action number `n` at instant `clock n`, until the
process stops. -/
def runActions (clock : Nat → Int) : Nat → List Action → Pipeline → Pipeline
  | _, [], pl => pl
  | n, a :: rest, pl =>
    if pl.halted then pl else runActions clock (n + 1) rest (applyAction (clock n) pl a)

/-- The whole pipeline on a list of frames. -/
def runPipeline (clock : Nat → Int) (frames : List Frame) : Pipeline :=
  runActions clock 0 (RouteHand frames).2.flatten Pipeline.init

/-- An action as the router issues them: a tracker is started empty and with the hand id
it is registered under, a pointable goes to the tracker of its own hand id. -/
def Action.WellAddressed : Action → Prop
  | Action.spawn handId hpc => hpc.HandId = handId ∧ hpc.Pointables = []
  | Action.sendPointable handId p => p.HandId = handId
  | Action.sendDisappeared _ => True

/-- The tracker `hpc` carries the hand id `k` and stores only pointables of hand `k`. -/
def HandPinchCheck.Sound (k : Int) (hpc : HandPinchCheck) : Prop :=
  hpc.HandId = k ∧ ∀ e ∈ hpc.Pointables, ∀ q ∈ e.2.History.items, q.HandId = k

/-- Every tracker of the pipeline is sound for the hand id it is registered under. -/
def Pipeline.Sound (pl : Pipeline) : Prop :=
  ∀ k hpc, mapLookup k pl.trackers = some hpc → hpc.Sound k

/-- Six frames in which fingers 10 and 11 of hand 1 close in, then finger 10 alone. -/
def closingFrames : List Frame :=
  (List.range 6).map (fun k =>
    [{ Id := 10, HandId := 1, TipPosition := (0, 0, 0) },
     { Id := 11, HandId := 1, TipPosition := (36 - (k : ℚ), 0, 0) }])
  ++ [[{ Id := 10, HandId := 1, TipPosition := (1, 0, 0) }]]

/-! ## Reading the router trace -/

/-- The number of pointables of a frame whose hand id is `h`. -/
def countHand (h : Int) (frame : Frame) : Nat :=
  (frame.filter (fun p => p.HandId = h)).length

/-- The frame received before frame `k` of the stream; none before the first. -/
def prevFrame (frames : List Frame) : Nat → Frame
  | 0 => []
  | k + 1 => frames.getD k []

/-- The pointables sent to the tracker of hand `h`, in the order they were sent. -/
def forwardedTo (h : Int) (acts : List Action) : List Pointable :=
  acts.filterMap (fun a =>
    match a with
    | Action.sendPointable handId p => if handId = h then some p else none
    | _ => none)

/-- The hand id an action is addressed to. -/
def Action.target : Action → Int
  | Action.spawn handId _ => handId
  | Action.sendPointable handId _ => handId
  | Action.sendDisappeared handId => handId

/-- The frame without its pointables of unknown hand. -/
def dropUnknown (frame : Frame) : Frame :=
  frame.filter (fun p => p.HandId ≠ -1)

/-- The map `m` holds exactly the counts of `frame`: one entry per hand id other than -1
seen in the frame, with the number of its pointables. -/
def CountsOf (m : List (Int × PPH)) (frame : Frame) : Prop :=
  (m.map Prod.fst).Nodup ∧
  ∀ h, mapLookup h m =
    if h ≠ -1 ∧ 0 < countHand h frame then
      some { HandId := h, NumPointables := countHand h frame }
    else none

/-- A tracker of hand 1 holding finger 10 at the origin and finger 11 at `pos`, both with 6
samples, last updated at instant 0. -/
def twoFingerTracker (pos : ℚ × ℚ × ℚ) : HandPinchCheck :=
  { HandId := 1
    LastUpdate := [(10, 0), (11, 0)]
    Pointables := [(10, stillFinger 6 0), (11, restingFinger pos 0)] }

/-- A tracker of hand 1 holding only finger 10, with 6 samples, last updated at instant 0. -/
def oneFingerTracker : HandPinchCheck :=
  { HandId := 1, LastUpdate := [(10, 0)], Pointables := [(10, stillFinger 6 0)] }

/-- Hand 1 shows fingers 10 and 11, then finger 10 alone. -/
def droppingFrames : List Frame :=
  [[{ Id := 10, HandId := 1, TipPosition := (0, 0, 0) },
    { Id := 11, HandId := 1, TipPosition := (30, 0, 0) }],
   [{ Id := 10, HandId := 1, TipPosition := (0, 0, 0) }]]

/-- Two pointables of unknown hand, then one. -/
def unknownHandFrames : List Frame :=
  [[{ Id := 10, HandId := -1, TipPosition := (0, 0, 0) },
    { Id := 11, HandId := -1, TipPosition := (30, 0, 0) }],
   [{ Id := 10, HandId := -1, TipPosition := (0, 0, 0) }]]

/-- Hands 1 and 2 and an unknown hand, interleaved over two frames. -/
def mixedFrames : List Frame :=
  [[{ Id := 10, HandId := 1, TipPosition := (0, 0, 0) },
    { Id := 20, HandId := 2, TipPosition := (5, 0, 0) },
    { Id := 30, HandId := -1, TipPosition := (9, 0, 0) },
    { Id := 11, HandId := 1, TipPosition := (30, 0, 0) }],
   [{ Id := 20, HandId := 2, TipPosition := (6, 0, 0) },
    { Id := 10, HandId := 1, TipPosition := (1, 0, 0) }]]

/-- The tracker of hand 1 after the pointables of `closingFrames`, handled one per
nanosecond. -/
def closingTracker : HandPinchCheck :=
  { HandId := 1
    LastUpdate := [(10, 13), (11, 12)]
    Pointables :=
      [(10, fingerHistory 10 1
          [(0, 0, 0), (0, 0, 0), (0, 0, 0), (0, 0, 0), (0, 0, 0), (0, 0, 0), (1, 0, 0)] 13),
       (11, fingerHistory 11 1
          [(36, 0, 0), (35, 0, 0), (34, 0, 0), (33, 0, 0), (32, 0, 0), (31, 0, 0)] 12)] }

/-! ## The end-to-end scenario -/

/-- A sample of finger 10 of hand 1. -/
def finger10 (pos : ℚ × ℚ × ℚ) : Pointable :=
  { Id := 10, HandId := 1, TipPosition := pos }

/-- A sample of finger 11 of hand 1. -/
def finger11 (pos : ℚ × ℚ × ℚ) : Pointable :=
  { Id := 11, HandId := 1, TipPosition := pos }

/-- A frame showing finger 10 at `x` and finger 11 at `y`; `sw` tells whether finger 11
comes first in the frame. -/
def frameOf (sw : Bool) (x y : ℚ × ℚ × ℚ) : Frame :=
  if sw then [finger11 y, finger10 x] else [finger10 x, finger11 y]

/-- The sends of the router for the frame `frameOf sw x y`. -/
def frameActions (sw : Bool) (x y : ℚ × ℚ × ℚ) : List Action :=
  if sw then [Action.sendPointable 1 (finger11 y), Action.sendPointable 1 (finger10 x)]
  else [Action.sendPointable 1 (finger10 x), Action.sendPointable 1 (finger11 y)]

/-- The stream of the scenario: 8 frames showing finger 10 at `a k` and finger 11 at `b k`
(in the order told by `sw k`), then a frame showing finger 10 alone at `a 8`. -/
def pinchScenario (sw : Nat → Bool) (a b : Nat → ℚ × ℚ × ℚ) : List Frame :=
  (List.range 8).map (fun k => frameOf (sw k) (a k) (b k)) ++ [[finger10 (a 8)]]

/-- The router between two frames that both show two pointables of hand 1. -/
def steadyState : RouterState :=
  { currPerHand := []
    pastPerHand := [(1, { HandId := 1, NumPointables := 2 })]
    PinchChecks := [(1, 1)] }

/-- The history of finger 10 of hand 1 seen at the positions `xs` (fewer than 15), last at
instant `t`. -/
def history10 (xs : List (ℚ × ℚ × ℚ)) (t : Int) : MyPointable :=
  { History := { size := MAX_POINTABLES_PER_HISTORY, items := xs.map finger10,
                 Added := xs.length }
    lastUpdate := t }

/-- The history of finger 11 of hand 1 seen at the positions `ys` (fewer than 15), last at
instant `t`. -/
def history11 (ys : List (ℚ × ℚ × ℚ)) (t : Int) : MyPointable :=
  { History := { size := MAX_POINTABLES_PER_HISTORY, items := ys.map finger11,
                 Added := ys.length }
    lastUpdate := t }

/-- The tracker of hand 1 that has seen finger 10 at the positions `xs` (last at instant
`t10`) and finger 11 at the positions `ys` (last at `t11`); `o` tells whether finger 11
comes first in its maps. -/
def scenarioTracker (o : Bool) (xs ys : List (ℚ × ℚ × ℚ)) (t10 t11 : Int) :
    HandPinchCheck :=
  { HandId := 1
    LastUpdate := if o then [(11, t11), (10, t10)] else [(10, t10), (11, t11)]
    Pointables :=
      if o then [(11, history11 ys t11), (10, history10 xs t10)]
      else [(10, history10 xs t10), (11, history11 ys t11)] }

/-- The instant `t` is less than 50 ms before the instant `T`, and not after it. -/
def InWindow (T t : Int) : Prop :=
  T - RECENT_WINDOW < t ∧ t ≤ T

/-- A clock for the scenario: action number `n` is handled at nanosecond `n`. -/
def tickClock (n : Nat) : Int := n

/-- Finger 10 stays at the origin. -/
def restingAt (_ : Nat) : ℚ × ℚ × ℚ := (0, 0, 0)

/-- Finger 11 comes closer along the x axis: squared distance to the origin 4900 in frame
0, down to 1764 in frame 7. -/
def closingIn (k : Nat) : ℚ × ℚ × ℚ := (70 - 4 * (k : ℚ), 0, 0)

/-! ## Well-formed histories and the spec's order of eviction -/

/-- A history as a tracker builds it: capacity 15, holding the last `min Added 15` items
added. -/
def Circ.WF (c : Circ) : Prop :=
  c.size = MAX_POINTABLES_PER_HISTORY ∧ c.items.length = min c.Added c.size

/-- The handling of a disappearance signal in the order the spec words it: the eviction
pass first, the candidates selected among the remaining entries, the eviction pass once
more at the end. -/
def evictThenListen (now : Int) (h : HandPinchCheck) : Option (HandPinchCheck × Option Pinch) :=
  let remaining := removeOld now h.Pointables
  match checkPair (collectPair now remaining) with
  | none => none
  | some sent => some ({ h with Pointables := removeOld now remaining }, sent)

/-- A tracker of hand 1 holding finger 10 updated at instant 0 and finger 11 updated 70 ms
earlier, both with 6 samples. -/
def staleFingerTracker : HandPinchCheck :=
  { HandId := 1
    LastUpdate := [(10, 0), (11, -70000000)]
    Pointables := [(10, stillFinger 6 0), (11, restingFinger (30, 0, 0) (-70000000))] }

/-- The finger map of a tracker when the handling of a signal reaches `REMOVE_OLD`: after
lines 143-155 for a pointable, untouched for a disappearance signal. -/
def updatedPointables (now : Int) (h : HandPinchCheck) : Signal → List (Int × MyPointable)
  | Signal.pointable p =>
    let myP : MyPointable :=
      match mapLookup p.Id h.Pointables with
      | some m => m
      | none => { History := NewCircBuf MAX_POINTABLES_PER_HISTORY, lastUpdate := 0 }
    mapInsert p.Id { History := myP.History.AddItem p, lastUpdate := now } h.Pointables
  | Signal.fingerDisappeared => h.Pointables

/-- Fingers 10 and 11 of hand 1 at rest, 30 apart, for 17 frames, then finger 10 alone. -/
def longFrames : List Frame :=
  (List.range 17).map (fun _ =>
    [{ Id := 10, HandId := 1, TipPosition := (0, 0, 0) },
     { Id := 11, HandId := 1, TipPosition := (30, 0, 0) }])
  ++ [[{ Id := 10, HandId := 1, TipPosition := (0, 0, 0) }]]

/-- Finger 11 of hand 1 moves away along the x axis, sample `k` at `10 + k`. -/
def retreatingFinger (n : Nat) (now : Int) : MyPointable :=
  fingerHistory 11 1 ((List.range n).map (fun k => (10 + (k : ℚ), 0, 0))) now

/-! ## The registry of trackers -/

/-- The trace of router actions is consistent, starting with trackers registered under the
hand ids of `reg`: a tracker is started only under a hand id that has none, and it is at
once sent a pointable of that hand id; a pointable or a notification is only sent to a hand
id that has a tracker; a tracker once started stays. -/
def traceValid : List Int → List Action → Prop
  | _, [] => True
  | reg, Action.spawn h _ :: rest =>
    h ∉ reg ∧ (∃ p more, rest = Action.sendPointable h p :: more ∧ p.HandId = h) ∧
      traceValid (h :: reg) rest
  | reg, Action.sendPointable h _ :: rest => h ∈ reg ∧ traceValid reg rest
  | reg, Action.sendDisappeared h :: rest => h ∈ reg ∧ traceValid reg rest

/-- The number of trackers started under hand id `h` in a trace. -/
def spawnCount (h : Int) (acts : List Action) : Nat :=
  (acts.filter (fun a =>
    match a with
    | Action.spawn k _ => decide (k = h)
    | _ => false)).length

/-- Whether a tracker is registered under hand id `h`. -/
def RouterState.registered (st : RouterState) (h : Int) : Bool :=
  (mapLookup h st.PinchChecks).isSome

/-- Every hand id counted in the current or in the previous frame has a tracker. -/
def RouterState.CountedRegistered (st : RouterState) : Prop :=
  (∀ k ∈ st.currPerHand.map Prod.fst, st.registered k = true) ∧
  (∀ k ∈ st.pastPerHand.map Prod.fst, st.registered k = true)

/-! ## Rounded float64 arithmetic -/

/-- The rational `2 ^ e` for an integer exponent `e`. -/
def twoPow (e : Int) : ℚ :=
  if 0 ≤ e then ((2 ^ e.toNat : Nat) : ℚ) else 1 / ((2 ^ (-e).toNat : Nat) : ℚ)

/-- The number of binary digits of `n`, found by halving `n` (at most `fuel` times). -/
def bitLengthAux : Nat → Nat → Nat
  | 0, _ => 0
  | fuel + 1, n => if n = 0 then 0 else bitLengthAux fuel (n / 2) + 1

/-- The number of binary digits of `n`: `2 ^ (bitLength n - 1) ≤ n < 2 ^ bitLength n` for
a positive `n`. Halving `n` reaches 0 in fewer than `n + 1` steps. -/
def bitLength (n : Nat) : Nat :=
  bitLengthAux n n

/-- For a positive rational `q`, the exponent `e` with `2 ^ e ≤ q < 2 ^ (e + 1)`: it is
the difference of the bit lengths of numerator and denominator, or one less. -/
def binaryExponent (q : ℚ) : Int :=
  let e0 : Int := (bitLength q.num.natAbs : Int) - (bitLength q.den : Int)
  if twoPow e0 ≤ q then e0 else e0 - 1

/-- The integer nearest to a non-negative rational, the even one of the two on a tie. -/
def roundHalfEven (q : ℚ) : Nat :=
  let n := q.num.natAbs
  let d := q.den
  let f := n / d
  let r := n % d
  if 2 * r < d then f
  else if d < 2 * r then f + 1
  else if f % 2 = 0 then f else f + 1

/-- The `float64` nearest to the rational `q`: IEEE 754 binary64 rounding to nearest, ties
to even, that is 53 significant bits. The exponent range is not limited: overflow and
subnormal numbers are left out. -/
def round64 (q : ℚ) : ℚ :=
  if q = 0 then 0
  else
    let ulp := twoPow (binaryExponent |q| - 52)
    (if q < 0 then -1 else 1) * ((roundHalfEven (|q| / ulp) : Nat) : ℚ) * ulp

/-- The function `Halfway` as `float64` computes it, `a + (0.5 * (b - a))` with the result
of each of the three operations rounded; `a` and `b` are `float64` values. -/
def Halfway64 (a b : ℚ) : ℚ :=
  round64 (a + round64 ((1 / 2) * round64 (b - a)))

/-- The pinch of `SetFrom2Pointables` with the coordinates computed by `Halfway64`. -/
def SetFrom2Pointables64 (p1 p2 : Pointable) : Pinch :=
  let (p1X, p1Y, p1Z) := XYZFromPointable p1
  let (p2X, p2Y, p2Z) := XYZFromPointable p2
  { X := Halfway64 p1X p2X
    Y := Halfway64 p1Y p2Y
    Z := Halfway64 p1Z p2Z
    HandId := p1.HandId }

/-- None of the three operations of `Halfway64 a b` rounds: the difference, its half and
the midpoint are `float64` values. -/
def ExactHalfway (a b : ℚ) : Prop :=
  round64 (b - a) = b - a ∧ round64 ((1 / 2) * (b - a)) = (1 / 2) * (b - a) ∧
    round64 ((a + b) / 2) = (a + b) / 2

/-- The `float64` written `0.1`. -/
def tenth64 : ℚ := round64 (1 / 10)

/-- The `float64` written `0.7`. -/
def sevenTenths64 : ℚ := round64 (7 / 10)

/-- The rational `3 / 2 ^ 54`, which is a `float32` and a `float64`. -/
def tiny64 : ℚ := 3 / 18014398509481984

/-! ## The convergence walk -/

theorem convergenceWalk_eq (mp p : MyPointable) (offs : List Nat) (s : WalkState) :
    convergenceWalk mp p offs s =
      (sampledDistances mp p offs).map (fun ds =>
        { dLast := (s.dLast :: ds).getLast (List.cons_ne_nil _ _)
          failThreshold := s.failThreshold + countRegressions s.dLast ds }) := by
  induction offs generalizing s with
  | nil => simp [convergenceWalk, sampledDistances, countRegressions]
  | cons i rest ih =>
    simp only [convergenceWalk, sampledDistances, walkBody]
    cases hA : mp.History.ReadFromStart i with
    | none => simp
    | some a =>
      cases hB : p.History.ReadFromStart i with
      | none => simp
      | some b =>
        simp only [ih]
        cases hds : sampledDistances mp p rest with
        | none => simp
        | some ds =>
          simp only [Option.map_some', countRegressions, Option.some.injEq, WalkState.mk.injEq]
          refine ⟨by simp [List.getLast_cons], ?_⟩
          split <;> omega

theorem CalculateConvergence_eq (mp p : MyPointable) :
    CalculateConvergence mp p =
      (sampledDistances mp p (loopOffsets (maxCount mp p))).map (fun ds =>
        decide (countRegressions 0 ds ≤ CONVERGENCE_THRESHOLD)) := by
  unfold CalculateConvergence
  rw [convergenceWalk_eq]
  cases sampledDistances mp p (loopOffsets (maxCount mp p)) with
  | none => simp
  | some ds =>
    simp only [Option.map_some', Nat.zero_add]
    by_cases h : countRegressions 0 ds ≤ CONVERGENCE_THRESHOLD
    · simp [h, Nat.not_lt.mpr h]
    · simp [h, Nat.lt_of_not_le h]

theorem maxCount_eq (mp p : MyPointable) :
    maxCount mp p = min mp.History.Added p.History.Added := by
  unfold maxCount MAX_POINTABLES_PER_HISTORY
  simp only [gt_iff_lt, Nat.not_lt_zero, if_false]
  split <;> omega

/-- C1: with both `Added` counters at 20 the loop bound is 20, not 15: the walk takes the
offsets 0, 2, ..., 18, among them 16, where a history of capacity 15 has nothing to read,
and the test ends in the fatal exit. -/
theorem C1_walk_exceeds_cap :
    maxCount (stillFinger 20 0) (approachingFinger 20 0) = 20 ∧
    loopOffsets (maxCount (stillFinger 20 0) (approachingFinger 20 0))
      = [0, 2, 4, 6, 8, 10, 12, 14, 16, 18] ∧
    (stillFinger 20 0).History.items.length = 15 ∧
    (stillFinger 20 0).History.ReadFromStart 16 = none ∧
    CalculateConvergence (stillFinger 20 0) (approachingFinger 20 0) = none := by
  refine ⟨by decide, by decide, by decide, by decide, by decide!⟩

/-- C2: for two fingers with 21 samples each whose distance decreases at every step, no
regression is counted on the offsets below 15, yet the test does not return true: it ends
in the fatal exit. -/
theorem C2_no_verdict_on_long_histories :
    (∃ ds, sampledDistances (stillFinger 21 0) (approachingFinger 21 0) (loopOffsets 15)
        = some ds ∧ countRegressions 0 ds = 0) ∧
    CalculateConvergence (stillFinger 21 0) (approachingFinger 21 0) = none := by
  refine ⟨⟨[8836, 8464, 8100, 7744, 7396, 7056, 6724, 6400], by decide!, by decide!⟩, by decide!⟩

theorem countRegressions_of_decreasing (d0 : ℚ) (ds : List ℚ)
    (h : List.Chain (fun d d' => d' < d) d0 ds) : countRegressions d0 ds = 0 := by
  induction ds generalizing d0 with
  | nil => rfl
  | cons d rest ih =>
    rw [List.chain_cons] at h
    have hlt : ¬ d0 < d := not_lt.mpr (le_of_lt h.1)
    simp [countRegressions, hlt, ih d h.2]

theorem countRegressions_zero_of_decreasing (ds : List ℚ)
    (h : List.Chain' (fun d d' => d' < d) ds) : countRegressions 0 ds = 0 := by
  cases ds with
  | nil => rfl
  | cons d rest =>
    simp only [countRegressions, ne_eq, not_true_eq_false, and_false, if_false, Nat.zero_add]
    exact countRegressions_of_decreasing d rest h

/-! ## One disappearance signal -/

theorem collectPair_length_le (now : Int) (pointables : List (Int × MyPointable)) :
    (collectPair now pointables).length ≤ pointables.length := by
  unfold collectPair
  rw [List.length_map]
  exact List.length_filter_le _ _

theorem checkPair_of_length_ne_two (pair : List MyPointable) (h : pair.length ≠ 2) :
    checkPair pair = some none := by
  match pair with
  | [] => rfl
  | [_] => rfl
  | [_, _] => exact absurd rfl h
  | _ :: _ :: _ :: _ => rfl

/-- C3: when a disappearance signal finds exactly two candidates `a` and `b` whose latest
samples are `goA` and `goB`, no pinch is sent if the squared distance of `goA` and `goB` is
at least 1900, and a pinch is sent if it is below 1900 and the convergence test of the pair
returns true. -/
theorem C3_distance_gate (now : Int) (h : HandPinchCheck) (a b : MyPointable)
    (goA goB : Pointable)
    (hpair : collectPair now h.Pointables = [a, b])
    (hA : a.History.ReadFromEnd 0 = some goA)
    (hB : b.History.ReadFromEnd 0 = some goB) :
    (DistanceBetweenPointables goA goB ≥ 1900 →
      ListenForPointables now h Signal.fingerDisappeared
        = some ({ h with Pointables := removeOld now h.Pointables }, none)) ∧
    (DistanceBetweenPointables goA goB < 1900 → CalculateConvergence a b = some true →
      ListenForPointables now h Signal.fingerDisappeared
        = some ({ h with Pointables := removeOld now h.Pointables },
                some (SetFrom2Pointables goA goB))) := by
  constructor
  · intro hd
    have hnot : ¬ DistanceBetweenPointables goA goB < PINCH_DISTANCE_THRESHOLD := by
      unfold PINCH_DISTANCE_THRESHOLD
      exact not_lt.mpr hd
    simp [ListenForPointables, hpair, checkPair, hA, hB, hnot]
  · intro hd hconv
    have hlt : DistanceBetweenPointables goA goB < PINCH_DISTANCE_THRESHOLD := by
      unfold PINCH_DISTANCE_THRESHOLD
      exact hd
    simp [ListenForPointables, hpair, checkPair, hA, hB, hlt, hconv]

/-- Witness of C3: two fingers at squared distance exactly 1900 send no pinch, two fingers
at squared distance 1899 send the pinch halfway between them. -/
theorem C3_distance_gate_witness :
    ListenForPointables 0 (twoFingerTracker (30, 30, 10)) Signal.fingerDisappeared
      = some ({ twoFingerTracker (30, 30, 10) with
                Pointables := removeOld 0 (twoFingerTracker (30, 30, 10)).Pointables }, none) ∧
    ListenForPointables 0 (twoFingerTracker (43, 7, 1)) Signal.fingerDisappeared
      = some ({ twoFingerTracker (43, 7, 1) with
                Pointables := removeOld 0 (twoFingerTracker (43, 7, 1)).Pointables },
              some { X := 43 / 2, Y := 7 / 2, Z := 1 / 2, HandId := 1 }) := by
  have hfar := (C3_distance_gate 0 (twoFingerTracker (30, 30, 10)) (stillFinger 6 0)
      (restingFinger (30, 30, 10) 0) { Id := 10, HandId := 1, TipPosition := (0, 0, 0) }
      { Id := 11, HandId := 1, TipPosition := (30, 30, 10) }
      (by decide!) (by decide!) (by decide!)).1 (by decide!)
  have hnear := (C3_distance_gate 0 (twoFingerTracker (43, 7, 1)) (stillFinger 6 0)
      (restingFinger (43, 7, 1) 0) { Id := 10, HandId := 1, TipPosition := (0, 0, 0) }
      { Id := 11, HandId := 1, TipPosition := (43, 7, 1) }
      (by decide!) (by decide!) (by decide!)).2 (by decide!) (by decide!)
  refine ⟨hfar, ?_⟩
  rw [hnear]
  decide!

/-- C4: when the candidates found by a disappearance signal are not exactly two, and in
particular when the tracker holds at most one finger, the signal is handled without a
fatal exit and no pinch is sent. -/
theorem C4_not_two_candidates (now : Int) (h : HandPinchCheck)
    (hne : (collectPair now h.Pointables).length ≠ 2 ∨ h.Pointables.length ≤ 1) :
    ListenForPointables now h Signal.fingerDisappeared
      = some ({ h with Pointables := removeOld now h.Pointables }, none) := by
  have hlen : (collectPair now h.Pointables).length ≠ 2 := by
    rcases hne with hne | hle
    · exact hne
    · have := collectPair_length_le now h.Pointables
      omega
  simp [ListenForPointables, checkPair_of_length_ne_two _ hlen]

/-- Witness of C4: a tracker holding one finger sends no pinch. -/
theorem C4_not_two_candidates_witness :
    ListenForPointables 0 oneFingerTracker Signal.fingerDisappeared
      = some ({ oneFingerTracker with
                Pointables := removeOld 0 oneFingerTracker.Pointables }, none) :=
  C4_not_two_candidates 0 oneFingerTracker (Or.inr (by decide))

/-- C10: when every offset visited by the walk holds a sample in both histories and the
squared distances at these offsets, `ds`, decrease strictly from each to the next, the walk
ends with zero regressions counted and the convergence test returns true. -/
theorem C10_decreasing_converges (mp p : MyPointable) (ds : List ℚ)
    (hds : sampledDistances mp p (loopOffsets (maxCount mp p)) = some ds)
    (hdec : List.Chain' (fun d d' => d' < d) ds) :
    (∃ s, convergenceWalk mp p (loopOffsets (maxCount mp p)) { dLast := 0, failThreshold := 0 }
        = some s ∧ s.failThreshold = 0) ∧
    CalculateConvergence mp p = some true := by
  have hz := countRegressions_zero_of_decreasing ds hdec
  constructor
  · rw [convergenceWalk_eq, hds]
    exact ⟨_, rfl, by simp [hz]⟩
  · rw [CalculateConvergence_eq, hds]
    simp [hz]

/-- Witness of C10: finger 11 approaching the still finger 10 over 8 samples. -/
theorem C10_decreasing_converges_witness :
    (∃ s, convergenceWalk (stillFinger 8 0) (approachingFinger 8 0)
        (loopOffsets (maxCount (stillFinger 8 0) (approachingFinger 8 0)))
        { dLast := 0, failThreshold := 0 } = some s ∧ s.failThreshold = 0) ∧
    CalculateConvergence (stillFinger 8 0) (approachingFinger 8 0) = some true :=
  C10_decreasing_converges (stillFinger 8 0) (approachingFinger 8 0)
    [10000, 9604, 9216, 8836] (by decide!) (by norm_num)

/-! ## Association lists -/

theorem mapLookup_mapInsert_self {β : Type} (k : Int) (v : β) (m : List (Int × β)) :
    mapLookup k (mapInsert k v m) = some v := by
  induction m with
  | nil => simp [mapInsert, mapLookup]
  | cons e rest ih =>
    by_cases he : e.1 = k
    · simp [mapInsert, mapLookup, he]
    · simp [mapInsert, mapLookup, he, ih]

theorem mapLookup_mapInsert_ne {β : Type} (k k' : Int) (v : β) (m : List (Int × β))
    (hne : k' ≠ k) : mapLookup k' (mapInsert k v m) = mapLookup k' m := by
  induction m with
  | nil =>
    have : ¬ k = k' := fun h => hne h.symm
    simp [mapInsert, mapLookup, this]
  | cons e rest ih =>
    by_cases he : e.1 = k
    · have : ¬ e.1 = k' := fun h => hne (h ▸ he.symm ▸ rfl)
      have hk : ¬ k = k' := fun h => hne h.symm
      simp [mapInsert, mapLookup, he, hk]
    · by_cases he' : e.1 = k'
      · simp [mapInsert, mapLookup, he, he', hne]
      · simp [mapInsert, mapLookup, he, he', ih]

theorem mem_keys_mapInsert {β : Type} (k k' : Int) (v : β) (m : List (Int × β)) :
    k' ∈ (mapInsert k v m).map Prod.fst ↔ k' = k ∨ k' ∈ m.map Prod.fst := by
  induction m with
  | nil => simp [mapInsert]
  | cons e rest ih =>
    by_cases he : e.1 = k
    · simp only [mapInsert, he, if_true, List.map_cons, List.mem_cons]
      constructor
      · rintro (h | h)
        · exact Or.inl h
        · exact Or.inr (Or.inr h)
      · rintro (h | h | h)
        · exact Or.inl h
        · exact Or.inl h
        · exact Or.inr h
    · simp only [mapInsert, he, if_false, List.map_cons, List.mem_cons, ih]
      constructor
      · rintro (h | h | h)
        · exact Or.inr (Or.inl h)
        · exact Or.inl h
        · exact Or.inr (Or.inr h)
      · rintro (h | h | h)
        · exact Or.inr (Or.inl h)
        · exact Or.inl h
        · exact Or.inr (Or.inr h)

theorem nodup_keys_mapInsert {β : Type} (k : Int) (v : β) (m : List (Int × β))
    (hm : (m.map Prod.fst).Nodup) : ((mapInsert k v m).map Prod.fst).Nodup := by
  induction m with
  | nil => simp [mapInsert]
  | cons e rest ih =>
    rw [List.map_cons, List.nodup_cons] at hm
    by_cases he : e.1 = k
    · simp only [mapInsert, he, if_true, List.map_cons, List.nodup_cons]
      exact ⟨he ▸ hm.1, hm.2⟩
    · simp only [mapInsert, he, if_false, List.map_cons, List.nodup_cons]
      refine ⟨?_, ih hm.2⟩
      rw [mem_keys_mapInsert]
      rintro (h | h)
      · exact he h
      · exact hm.1 h

theorem mapLookup_eq_none_of_not_mem {β : Type} (k : Int) (m : List (Int × β))
    (h : k ∉ m.map Prod.fst) : mapLookup k m = none := by
  induction m with
  | nil => rfl
  | cons e rest ih =>
    simp only [List.map_cons, List.mem_cons, not_or] at h
    have : ¬ e.1 = k := fun he => h.1 he.symm
    simp [mapLookup, this, ih h.2]

theorem mapLookup_of_mem {β : Type} (e : Int × β) (m : List (Int × β))
    (hm : (m.map Prod.fst).Nodup) (he : e ∈ m) : mapLookup e.1 m = some e.2 := by
  induction m with
  | nil => cases he
  | cons e' rest ih =>
    rw [List.map_cons, List.nodup_cons] at hm
    rcases List.mem_cons.mp he with h | h
    · subst h
      simp [mapLookup]
    · have hne : ¬ e'.1 = e.1 := by
        intro heq
        exact hm.1 (heq ▸ List.mem_map_of_mem Prod.fst h)
      simp [mapLookup, hne, ih hm.2 h]

/-! ## The router: counting pointables per hand -/

theorem countHand_append_singleton (h : Int) (pre : Frame) (p : Pointable) :
    countHand h (pre ++ [p]) = countHand h pre + (if p.HandId = h then 1 else 0) := by
  unfold countHand
  rw [List.filter_append, List.length_append]
  by_cases hp : p.HandId = h <;> simp [List.filter_cons, hp]

theorem CountsOf_nil : CountsOf [] [] := by
  refine ⟨by simp, fun h => ?_⟩
  simp [mapLookup, countHand]

theorem routePointable_unknown (st : RouterState) (p : Pointable) (hp : p.HandId = -1) :
    routePointable st p = (st, []) := by
  simp [routePointable, hp]

theorem routePointable_past (st : RouterState) (p : Pointable) :
    (routePointable st p).1.pastPerHand = st.pastPerHand := by
  unfold routePointable
  simp only
  split
  · rfl
  · split <;> rfl

theorem routePointable_curr (st : RouterState) (p : Pointable) (hp : p.HandId ≠ -1) :
    (routePointable st p).1.currPerHand =
      match mapLookup p.HandId st.currPerHand with
      | some pph =>
        mapInsert p.HandId { pph with NumPointables := pph.NumPointables + 1 } st.currPerHand
      | none =>
        mapInsert p.HandId { HandId := p.HandId, NumPointables := 0 + 1 } st.currPerHand := by
  unfold routePointable
  simp only [hp, if_false]
  split <;> rfl

theorem CountsOf_routePointable (st : RouterState) (p : Pointable) (pre : Frame)
    (hc : CountsOf st.currPerHand pre) :
    CountsOf (routePointable st p).1.currPerHand (pre ++ [p]) := by
  by_cases hp : p.HandId = -1
  · rw [routePointable_unknown st p hp]
    refine ⟨hc.1, fun h => ?_⟩
    rw [hc.2 h, countHand_append_singleton]
    by_cases hh : h = -1
    · simp [hh]
    · have : ¬ p.HandId = h := fun e => hh (e ▸ hp)
      simp [this]
  · have hcur : (routePointable st p).1.currPerHand =
        mapInsert p.HandId
          { HandId := p.HandId, NumPointables := countHand p.HandId pre + 1 }
          st.currPerHand := by
      rw [routePointable_curr st p hp, hc.2 p.HandId]
      by_cases hpos : 0 < countHand p.HandId pre
      · simp [hp, hpos]
      · have hz : countHand p.HandId pre = 0 := by omega
        simp [hz]
    rw [hcur]
    refine ⟨nodup_keys_mapInsert _ _ _ hc.1, fun h => ?_⟩
    rw [countHand_append_singleton]
    by_cases hh : h = p.HandId
    · subst hh
      rw [mapLookup_mapInsert_self]
      simp [hp]
    · rw [mapLookup_mapInsert_ne _ _ _ _ hh, hc.2 h]
      have : ¬ p.HandId = h := fun e => hh e.symm
      simp [this]

theorem routePointables_past (st : RouterState) (frame : Frame) :
    (routePointables st frame).1.pastPerHand = st.pastPerHand := by
  induction frame generalizing st with
  | nil => rfl
  | cons p rest ih =>
    simp only [routePointables]
    rw [ih, routePointable_past]

theorem CountsOf_routePointables (st : RouterState) (rest pre : Frame)
    (hc : CountsOf st.currPerHand pre) :
    CountsOf (routePointables st rest).1.currPerHand (pre ++ rest) := by
  induction rest generalizing st pre with
  | nil => simpa [routePointables] using hc
  | cons p rest ih =>
    simp only [routePointables]
    have h1 := ih (routePointable st p).1 (pre ++ [p]) (CountsOf_routePointable st p pre hc)
    simpa [List.append_assoc] using h1

/-! ## The router: notifications -/

theorem count_notify_of_not_mem (h : Int) (past curr : List (Int × PPH))
    (hn : h ∉ past.map Prod.fst) :
    (notifyDisappeared past curr).count (Action.sendDisappeared h) = 0 := by
  induction past with
  | nil => simp [notifyDisappeared]
  | cons e rest ih =>
    simp only [List.map_cons, List.mem_cons, not_or] at hn
    have hne : ¬ e.1 = h := fun he => hn.1 he.symm
    unfold notifyDisappeared at ih ⊢
    rw [List.filterMap_cons]
    split
    · exact ih hn.2
    · rename_i a ha
      have ha' : a = Action.sendDisappeared e.1 := by
        split at ha
        · split at ha
          · exact (Option.some.inj ha).symm
          · cases ha
        · cases ha
      have hne' : Action.sendDisappeared h ≠ a := by
        rw [ha']
        intro heq
        exact hne (Action.sendDisappeared.inj heq).symm
      rw [List.count_cons_of_ne hne']
      exact ih hn.2

theorem count_notify (h : Int) (past curr : List (Int × PPH))
    (hnd : (past.map Prod.fst).Nodup) :
    (notifyDisappeared past curr).count (Action.sendDisappeared h) =
      match mapLookup h past, mapLookup h curr with
      | some pph, some cHnum => if cHnum.NumPointables < pph.NumPointables then 1 else 0
      | _, _ => 0 := by
  induction past with
  | nil => simp [notifyDisappeared, mapLookup]
  | cons e rest ih =>
    rw [List.map_cons, List.nodup_cons] at hnd
    by_cases he : e.1 = h
    · have hrest := count_notify_of_not_mem h rest curr (he ▸ hnd.1)
      unfold notifyDisappeared at hrest ⊢
      rw [List.filterMap_cons]
      simp only [mapLookup, he, if_true]
      cases hcur : mapLookup h curr with
      | none => simpa using hrest
      | some cHnum =>
        by_cases hlt : cHnum.NumPointables < e.2.NumPointables
        · simp [hlt, hrest]
        · simp [hlt, hrest]
    · have hih := ih hnd.2
      have hstep : (notifyDisappeared (e :: rest) curr).count (Action.sendDisappeared h)
          = (notifyDisappeared rest curr).count (Action.sendDisappeared h) := by
        unfold notifyDisappeared
        rw [List.filterMap_cons]
        split
        · rfl
        · rename_i a ha
          have ha' : a = Action.sendDisappeared e.1 := by
            split at ha
            · split at ha
              · exact (Option.some.inj ha).symm
              · cases ha
            · cases ha
          have hne' : Action.sendDisappeared h ≠ a := by
            rw [ha']
            intro heq
            exact he (Action.sendDisappeared.inj heq).symm
          rw [List.count_cons_of_ne hne']
      rw [hstep, hih]
      simp [mapLookup, he]

theorem count_routePointables (h : Int) (st : RouterState) (frame : Frame) :
    (routePointables st frame).2.count (Action.sendDisappeared h) = 0 := by
  induction frame generalizing st with
  | nil => simp [routePointables]
  | cons p rest ih =>
    simp only [routePointables, List.count_append, ih, Nat.add_zero]
    unfold routePointable
    simp only
    split
    · simp
    · split <;> simp [List.count_cons]

theorem CountsOf_routeFrame (st : RouterState) (frame : Frame)
    (hcur : st.currPerHand = []) :
    (routeFrame st frame).1.currPerHand = [] ∧
    CountsOf (routeFrame st frame).1.pastPerHand frame := by
  refine ⟨rfl, ?_⟩
  have h0 : CountsOf st.currPerHand [] := hcur ▸ CountsOf_nil
  have h1 := CountsOf_routePointables st frame [] h0
  simpa [routeFrame] using h1

theorem count_routeFrame (h : Int) (st : RouterState) (frame prev : Frame)
    (hcur : st.currPerHand = []) (hpast : CountsOf st.pastPerHand prev) :
    (routeFrame st frame).2.count (Action.sendDisappeared h) =
      if h ≠ -1 ∧ 0 < countHand h frame ∧ 0 < countHand h prev ∧
          countHand h frame < countHand h prev then 1 else 0 := by
  have h0 : CountsOf st.currPerHand [] := hcur ▸ CountsOf_nil
  have hc : CountsOf (routePointables st frame).1.currPerHand frame := by
    simpa using CountsOf_routePointables st frame [] h0
  simp only [routeFrame, List.count_append, count_routePointables, Nat.zero_add]
  rw [routePointables_past, count_notify h _ _ hpast.1, hpast.2 h, hc.2 h]
  by_cases hh : h = -1
  · simp [hh]
  · by_cases hp : 0 < countHand h prev
    · by_cases hf : 0 < countHand h frame
      · simp [hh, hp, hf]
      · simp [hh, hp, hf]
    · simp [hh, hp]

theorem count_routeFrames (h : Int) (st : RouterState) (frames : List Frame) (prev : Frame)
    (k : Nat) (hk : k < frames.length)
    (hcur : st.currPerHand = []) (hpast : CountsOf st.pastPerHand prev) :
    ((routeFrames st frames).2.getD k []).count (Action.sendDisappeared h) =
      if h ≠ -1 ∧ 0 < countHand h (frames.getD k []) ∧
          0 < countHand h (prevFrame (prev :: frames) (k + 1)) ∧
          countHand h (frames.getD k []) < countHand h (prevFrame (prev :: frames) (k + 1))
      then 1 else 0 := by
  induction frames generalizing st prev k with
  | nil => simp at hk
  | cons f rest ih =>
    have hst := CountsOf_routeFrame st f hcur
    cases k with
    | zero =>
      simp only [routeFrames, prevFrame, List.getD_cons_zero]
      exact count_routeFrame h st f prev hcur hpast
    | succ j =>
      have hj : j < rest.length := by simpa using hk
      have := ih (routeFrame st f).1 f j hj hst.1 hst.2
      simpa [routeFrames, prevFrame] using this

/-- C6, as the code has it: after frame `k` the router sends a disappearance notification
to hand `h` exactly when `h` is not -1, has a pointable in frame `k`, has one in frame
`k - 1`, and has strictly fewer in frame `k` than in frame `k - 1`; it then sends exactly
one, and a hand without a pointable in frame `k` gets none. -/
theorem C6_notification_iff (frames : List Frame) (k : Nat) (h : Int)
    (hk : k < frames.length) :
    (Action.sendDisappeared h ∈ (RouteHand frames).2.getD k [] ↔
      h ≠ -1 ∧ 0 < countHand h (frames.getD k []) ∧ 0 < countHand h (prevFrame frames k) ∧
        countHand h (frames.getD k []) < countHand h (prevFrame frames k)) ∧
    (((RouteHand frames).2.getD k []).count (Action.sendDisappeared h) =
      if h ≠ -1 ∧ 0 < countHand h (frames.getD k []) ∧ 0 < countHand h (prevFrame frames k) ∧
        countHand h (frames.getD k []) < countHand h (prevFrame frames k) then 1 else 0) ∧
    (countHand h (frames.getD k []) = 0 →
      Action.sendDisappeared h ∉ (RouteHand frames).2.getD k []) := by
  have hcount := count_routeFrames h RouterState.init frames [] k hk rfl CountsOf_nil
  have hprev : prevFrame ([] :: frames) (k + 1) = prevFrame frames k := by
    cases k with
    | zero => simp [prevFrame]
    | succ j => simp [prevFrame]
  rw [hprev] at hcount
  have hmem : Action.sendDisappeared h ∈ (RouteHand frames).2.getD k [] ↔
      0 < ((RouteHand frames).2.getD k []).count (Action.sendDisappeared h) :=
    List.count_pos_iff.symm
  refine ⟨?_, hcount, ?_⟩
  · rw [hmem]
    unfold RouteHand
    rw [hcount]
    split <;> simp_all
  · intro hz
    rw [hmem]
    unfold RouteHand
    rw [hcount, if_neg]
    · exact Nat.lt_irrefl 0
    · intro hc
      omega

/-- Witness of C6: hand 1 goes from two pointables to one and is notified. -/
theorem C6_notification_iff_witness :
    Action.sendDisappeared 1 ∈ (RouteHand droppingFrames).2.getD 1 [] ∧
    ((RouteHand droppingFrames).2.getD 1 []).count (Action.sendDisappeared 1) = 1 := by
  have h := C6_notification_iff droppingFrames 1 1 (by decide)
  refine ⟨h.1.mpr (by decide), ?_⟩
  rw [h.2.1]
  decide

/-- Counterexample to C6 as stated: the unknown hand -1 has two pointables in frame 0 and
one in frame 1, and no notification is sent to -1 after frame 1. -/
theorem C6_unknown_hand_not_notified :
    (0 < countHand (-1) (unknownHandFrames.getD 1 []) ∧
      0 < countHand (-1) (prevFrame unknownHandFrames 1) ∧
      countHand (-1) (unknownHandFrames.getD 1 [])
        < countHand (-1) (prevFrame unknownHandFrames 1)) ∧
    Action.sendDisappeared (-1) ∉ (RouteHand unknownHandFrames).2.getD 1 [] := by
  decide!

/-! ## The router: what is forwarded -/

theorem mem_routePointable (st : RouterState) (p : Pointable) (a : Action)
    (ha : a ∈ (routePointable st p).2) :
    p.HandId ≠ -1 ∧
    (a = Action.spawn p.HandId { HandId := p.HandId, LastUpdate := [], Pointables := [] } ∨
      a = Action.sendPointable p.HandId p) := by
  unfold routePointable at ha
  simp only at ha
  split at ha
  · simp at ha
  · rename_i hp
    refine ⟨hp, ?_⟩
    split at ha
    · simp only [List.mem_singleton] at ha
      exact Or.inr ha
    · simp only [List.mem_cons, List.mem_singleton, List.mem_nil_iff, or_false] at ha
      exact ha

theorem mem_routePointables (st : RouterState) (frame : Frame) (a : Action)
    (ha : a ∈ (routePointables st frame).2) :
    ∃ p ∈ frame, p.HandId ≠ -1 ∧
      (a = Action.spawn p.HandId { HandId := p.HandId, LastUpdate := [], Pointables := [] } ∨
        a = Action.sendPointable p.HandId p) := by
  induction frame generalizing st with
  | nil => simp [routePointables] at ha
  | cons p rest ih =>
    simp only [routePointables, List.mem_append] at ha
    rcases ha with ha | ha
    · exact ⟨p, List.mem_cons_self _ _, mem_routePointable st p a ha⟩
    · obtain ⟨q, hq, hrest⟩ := ih _ ha
      exact ⟨q, List.mem_cons_of_mem _ hq, hrest⟩

theorem mem_notifyDisappeared (past curr : List (Int × PPH)) (a : Action)
    (ha : a ∈ notifyDisappeared past curr) :
    ∃ e ∈ past, a = Action.sendDisappeared e.1 := by
  unfold notifyDisappeared at ha
  rw [List.mem_filterMap] at ha
  obtain ⟨e, he, hea⟩ := ha
  refine ⟨e, he, ?_⟩
  split at hea
  · split at hea
    · exact (Option.some.inj hea).symm
    · cases hea
  · cases hea

theorem forwardedTo_append (h : Int) (xs ys : List Action) :
    forwardedTo h (xs ++ ys) = forwardedTo h xs ++ forwardedTo h ys := by
  unfold forwardedTo
  exact List.filterMap_append _ _ _

theorem forwardedTo_routePointable (h : Int) (st : RouterState) (p : Pointable) :
    forwardedTo h (routePointable st p).2 =
      if p.HandId = h ∧ p.HandId ≠ -1 then [p] else [] := by
  unfold routePointable
  simp only
  split
  · rename_i hp
    simp [forwardedTo, hp]
  · rename_i hp
    split
    · by_cases hh : p.HandId = h
      · subst hh
        simp [forwardedTo, hp]
      · simp [forwardedTo, hh]
    · by_cases hh : p.HandId = h
      · subst hh
        simp [forwardedTo, hp]
      · simp [forwardedTo, hh]

theorem forwardedTo_routePointables (h : Int) (st : RouterState) (frame : Frame) :
    forwardedTo h (routePointables st frame).2 =
      frame.filter (fun p => decide (p.HandId = h ∧ p.HandId ≠ -1)) := by
  induction frame generalizing st with
  | nil => simp [routePointables, forwardedTo]
  | cons p rest ih =>
    simp only [routePointables, forwardedTo_append, forwardedTo_routePointable, ih]
    by_cases hc : p.HandId = h ∧ p.HandId ≠ -1
    · rw [if_pos hc, List.filter_cons, if_pos (by simpa using hc)]
      rfl
    · rw [if_neg hc, List.filter_cons, if_neg (by simpa using hc)]
      rfl

theorem forwardedTo_notifyDisappeared (h : Int) (past curr : List (Int × PPH)) :
    forwardedTo h (notifyDisappeared past curr) = [] := by
  unfold forwardedTo
  rw [List.filterMap_eq_nil_iff]
  intro a ha
  obtain ⟨e, _, hea⟩ := mem_notifyDisappeared past curr a ha
  rw [hea]

theorem forwardedTo_routeFrames (h : Int) (st : RouterState) (frames : List Frame) :
    forwardedTo h (routeFrames st frames).2.flatten =
      frames.flatten.filter (fun p => decide (p.HandId = h ∧ p.HandId ≠ -1)) := by
  induction frames generalizing st with
  | nil => simp [routeFrames, forwardedTo]
  | cons f rest ih =>
    simp only [routeFrames, List.flatten_cons, forwardedTo_append, ih, routeFrame,
      forwardedTo_routePointables, forwardedTo_notifyDisappeared, List.append_nil,
      List.filter_append]

theorem mem_routeFrames_sendPointable (st : RouterState) (frames : List Frame)
    (h : Int) (p : Pointable)
    (ha : Action.sendPointable h p ∈ (routeFrames st frames).2.flatten) :
    h = p.HandId ∧ p ∈ frames.flatten := by
  induction frames generalizing st with
  | nil => simp [routeFrames] at ha
  | cons f rest ih =>
    simp only [routeFrames, List.flatten_cons, List.mem_append, routeFrame] at ha
    rcases ha with (ha | ha) | ha
    · obtain ⟨q, hq, _, hcase⟩ := mem_routePointables st f _ ha
      rcases hcase with hcase | hcase
      · cases hcase
      · injection hcase with h1 h2
        subst h2
        exact ⟨h1, by simp [hq]⟩
    · obtain ⟨e, _, hea⟩ := mem_notifyDisappeared _ _ _ ha
      cases hea
    · obtain ⟨h1, h2⟩ := ih _ ha
      exact ⟨h1, by simp [h2]⟩

/-- C7: for every hand id `h` other than -1, the pointables the router sends to the tracker
of `h` are exactly the pointables of the stream whose hand id is `h`, in stream order, each
once; and a pointable is only ever sent to the tracker of its own hand id. -/
theorem C7_forwarding_exact (frames : List Frame) (h : Int) (hh : h ≠ -1) :
    forwardedTo h (RouteHand frames).2.flatten
      = frames.flatten.filter (fun p => decide (p.HandId = h)) ∧
    (∀ h1 p, Action.sendPointable h1 p ∈ (RouteHand frames).2.flatten →
      h1 = p.HandId ∧ p ∈ frames.flatten) := by
  constructor
  · unfold RouteHand
    rw [forwardedTo_routeFrames]
    apply List.filter_congr
    intro p _
    by_cases hp : p.HandId = h
    · simp [hp, hh]
    · simp [hp]
  · intro h1 p ha
    exact mem_routeFrames_sendPointable _ _ _ _ ha

/-- Witness of C7: hand 1 receives its three pointables of the mixed stream in order. -/
theorem C7_forwarding_exact_witness :
    forwardedTo 1 (RouteHand mixedFrames).2.flatten
      = [{ Id := 10, HandId := 1, TipPosition := (0, 0, 0) },
         { Id := 11, HandId := 1, TipPosition := (30, 0, 0) },
         { Id := 10, HandId := 1, TipPosition := (1, 0, 0) }] := by
  rw [(C7_forwarding_exact mixedFrames 1 (by decide)).1]
  decide!

/-! ## The router: pointables of unknown hand -/

theorem routePointables_dropUnknown (st : RouterState) (frame : Frame) :
    routePointables st frame = routePointables st (dropUnknown frame) := by
  induction frame generalizing st with
  | nil => rfl
  | cons p rest ih =>
    by_cases hp : p.HandId = -1
    · have hdrop : dropUnknown (p :: rest) = dropUnknown rest := by
        simp [dropUnknown, List.filter_cons, hp]
      rw [hdrop, ← ih]
      simp [routePointables, routePointable_unknown st p hp]
    · have hdrop : dropUnknown (p :: rest) = p :: dropUnknown rest := by
        simp [dropUnknown, List.filter_cons, hp]
      rw [hdrop]
      simp only [routePointables]
      rw [ih]

theorem routeFrames_dropUnknown (st : RouterState) (frames : List Frame) :
    routeFrames st frames = routeFrames st (frames.map dropUnknown) := by
  induction frames generalizing st with
  | nil => rfl
  | cons f rest ih =>
    have hf : routeFrame st f = routeFrame st (dropUnknown f) := by
      unfold routeFrame
      rw [routePointables_dropUnknown]
    simp only [List.map_cons, routeFrames]
    rw [hf, ih]

theorem routePointable_checks_unknown (st : RouterState) (p : Pointable) :
    mapLookup (-1) (routePointable st p).1.PinchChecks = mapLookup (-1) st.PinchChecks := by
  unfold routePointable
  simp only
  split
  · rfl
  · rename_i hp
    split
    · rfl
    · exact mapLookup_mapInsert_ne _ _ _ _ (fun h => hp h.symm)

theorem routePointables_checks_unknown (st : RouterState) (frame : Frame) :
    mapLookup (-1) (routePointables st frame).1.PinchChecks
      = mapLookup (-1) st.PinchChecks := by
  induction frame generalizing st with
  | nil => rfl
  | cons p rest ih =>
    simp only [routePointables]
    rw [ih, routePointable_checks_unknown]

theorem routeFrames_checks_unknown (st : RouterState) (frames : List Frame) :
    mapLookup (-1) (routeFrames st frames).1.PinchChecks
      = mapLookup (-1) st.PinchChecks := by
  induction frames generalizing st with
  | nil => rfl
  | cons f rest ih =>
    simp only [routeFrames]
    rw [ih]
    exact routePointables_checks_unknown st f

theorem CountsOf_unknown (m : List (Int × PPH)) (frame : Frame) (hc : CountsOf m frame) :
    mapLookup (-1) m = none := by
  rw [hc.2 (-1)]
  simp

theorem routeFrames_past_unknown (st : RouterState) (frames : List Frame) (prev : Frame)
    (hcur : st.currPerHand = []) (hpast : CountsOf st.pastPerHand prev) :
    mapLookup (-1) (routeFrames st frames).1.pastPerHand = none ∧
    (routeFrames st frames).1.currPerHand = [] := by
  induction frames generalizing st prev with
  | nil => exact ⟨CountsOf_unknown _ _ hpast, hcur⟩
  | cons f rest ih =>
    have hst := CountsOf_routeFrame st f hcur
    simp only [routeFrames]
    exact ih _ f hst.1 hst.2

theorem target_routeFrames (st : RouterState) (frames : List Frame) (prev : Frame)
    (hcur : st.currPerHand = []) (hpast : CountsOf st.pastPerHand prev)
    (a : Action) (ha : a ∈ (routeFrames st frames).2.flatten) : a.target ≠ -1 := by
  induction frames generalizing st prev with
  | nil => simp [routeFrames] at ha
  | cons f rest ih =>
    have hst := CountsOf_routeFrame st f hcur
    simp only [routeFrames, List.flatten_cons, List.mem_append, routeFrame] at ha
    rcases ha with (ha | ha) | ha
    · obtain ⟨q, _, hq, hcase⟩ := mem_routePointables st f _ ha
      rcases hcase with hcase | hcase <;> (rw [hcase]; exact hq)
    · obtain ⟨e, he, hea⟩ := mem_notifyDisappeared _ _ _ ha
      rw [hea]
      rw [routePointables_past] at he
      intro htarget
      have hlook := mapLookup_of_mem e st.pastPerHand hpast.1 he
      have hnone := CountsOf_unknown _ _ hpast
      simp only [Action.target] at htarget
      rw [htarget, hnone] at hlook
      cases hlook
    · exact ih _ f hst.1 hst.2 ha

/-- C8: the router does on a stream exactly what it does on the stream without its
pointables of hand id -1 (same final state, same actions frame by frame); no action is
addressed to hand -1, no tracker is registered under -1, and -1 is in no count snapshot. -/
theorem C8_unknown_hand_dropped (frames : List Frame) :
    RouteHand frames = RouteHand (frames.map dropUnknown) ∧
    (∀ a ∈ (RouteHand frames).2.flatten, a.target ≠ -1) ∧
    mapLookup (-1) (RouteHand frames).1.PinchChecks = none ∧
    mapLookup (-1) (RouteHand frames).1.pastPerHand = none ∧
    (RouteHand frames).1.currPerHand = [] := by
  refine ⟨routeFrames_dropUnknown _ _, ?_, ?_, ?_⟩
  · intro a ha
    exact target_routeFrames RouterState.init frames [] rfl CountsOf_nil a ha
  · unfold RouteHand
    rw [routeFrames_checks_unknown]
    rfl
  · exact routeFrames_past_unknown RouterState.init frames [] rfl CountsOf_nil

/-! ## Trackers fed by the router -/

theorem mem_mapInsert {β : Type} (k : Int) (v : β) (m : List (Int × β)) (e : Int × β)
    (he : e ∈ mapInsert k v m) : e = (k, v) ∨ e ∈ m := by
  induction m with
  | nil =>
    simp only [mapInsert, List.mem_singleton] at he
    exact Or.inl he
  | cons e' rest ih =>
    unfold mapInsert at he
    split at he
    · rcases List.mem_cons.mp he with h | h
      · exact Or.inl h
      · exact Or.inr (List.mem_cons_of_mem _ h)
    · rcases List.mem_cons.mp he with h | h
      · exact Or.inr (h ▸ List.mem_cons_self _ _)
      · rcases ih h with h1 | h1
        · exact Or.inl h1
        · exact Or.inr (List.mem_cons_of_mem _ h1)

theorem mapLookup_mem {β : Type} (k : Int) (v : β) (m : List (Int × β))
    (h : mapLookup k m = some v) : (k, v) ∈ m := by
  induction m with
  | nil => cases h
  | cons e rest ih =>
    unfold mapLookup at h
    split at h
    · rename_i he
      have : e = (k, v) := by
        cases e
        simp only at he
        simp only [Option.some.injEq] at h
        rw [he, h]
      exact this ▸ List.mem_cons_self _ _
    · exact List.mem_cons_of_mem _ (ih h)

theorem mapLookup_mapInsert {β : Type} (k k' : Int) (v : β) (m : List (Int × β)) :
    mapLookup k' (mapInsert k v m) = if k' = k then some v else mapLookup k' m := by
  by_cases h : k' = k
  · rw [if_pos h, h, mapLookup_mapInsert_self]
  · rw [if_neg h, mapLookup_mapInsert_ne _ _ _ _ h]

theorem mem_items_AddItem (c : Circ) (p q : Pointable) (hq : q ∈ (c.AddItem p).items) :
    q = p ∨ q ∈ c.items := by
  have h1 : q ∈ c.items ++ [p] := List.mem_of_mem_drop hq
  rcases List.mem_append.mp h1 with h | h
  · exact Or.inr h
  · exact Or.inl (List.mem_singleton.mp h)

theorem mem_items_of_ReadFromEnd (c : Circ) (i : Nat) (q : Pointable)
    (h : c.ReadFromEnd i = some q) : q ∈ c.items := by
  unfold Circ.ReadFromEnd at h
  split at h
  · exact List.get?_mem h
  · cases h

theorem mem_collectPair (now : Int) (m : List (Int × MyPointable)) (a : MyPointable)
    (ha : a ∈ collectPair now m) : ∃ e ∈ m, e.2 = a := by
  unfold collectPair at ha
  rw [List.mem_map] at ha
  obtain ⟨e, he, hea⟩ := ha
  exact ⟨e, List.mem_of_mem_filter he, hea⟩

theorem mem_removeOld (now : Int) (m : List (Int × MyPointable)) (e : Int × MyPointable)
    (he : e ∈ removeOld now m) : e ∈ m :=
  List.mem_of_mem_filter he

theorem checkPair_some (pair : List MyPointable) (pinch : Pinch)
    (h : checkPair pair = some (some pinch)) :
    ∃ a b goA goB, pair = [a, b] ∧ a.History.ReadFromEnd 0 = some goA ∧
      b.History.ReadFromEnd 0 = some goB ∧
      DistanceBetweenPointables goA goB < PINCH_DISTANCE_THRESHOLD ∧
      CalculateConvergence a b = some true ∧ pinch = SetFrom2Pointables goA goB := by
  match pair with
  | [] => simp [checkPair] at h
  | [_] => simp [checkPair] at h
  | _ :: _ :: _ :: _ => simp [checkPair] at h
  | [a, b] =>
    unfold checkPair at h
    cases hA : a.History.ReadFromEnd 0 with
    | none => simp [hA] at h
    | some goA =>
      cases hB : b.History.ReadFromEnd 0 with
      | none => simp [hA, hB] at h
      | some goB =>
        simp only [hA, hB] at h
        split at h
        · rename_i hd
          cases hc : CalculateConvergence a b with
          | none => simp [hc] at h
          | some conv =>
            cases conv with
            | false => simp [hc] at h
            | true =>
              simp only [hc, if_true, Option.some.injEq] at h
              exact ⟨a, b, goA, goB, rfl, hA, hB, hd, hc, h.symm⟩
        · simp at h

theorem listen_disappeared_some (now : Int) (h h' : HandPinchCheck) (pinch : Pinch)
    (hemit : ListenForPointables now h Signal.fingerDisappeared = some (h', some pinch)) :
    checkPair (collectPair now h.Pointables) = some (some pinch) := by
  unfold ListenForPointables at hemit
  cases hc : checkPair (collectPair now h.Pointables) with
  | none => simp [hc] at hemit
  | some sent =>
    simp only [hc, Option.some.injEq, Prod.mk.injEq] at hemit
    rw [hemit.2]

theorem Sound_listen (now : Int) (k : Int) (hpc hpc' : HandPinchCheck) (sig : Signal)
    (sent : Option Pinch) (hs : hpc.Sound k)
    (hsig : ∀ p, sig = Signal.pointable p → p.HandId = k)
    (hstep : ListenForPointables now hpc sig = some (hpc', sent)) : hpc'.Sound k := by
  cases sig with
  | pointable p =>
    have hp := hsig p rfl
    simp only [ListenForPointables, Option.some.injEq, Prod.mk.injEq] at hstep
    rw [← hstep.1]
    refine ⟨hs.1, ?_⟩
    intro e he q hq
    rcases mem_mapInsert _ _ _ _ (mem_removeOld _ _ _ he) with h1 | h1
    · rw [h1] at hq
      rcases mem_items_AddItem _ _ _ hq with h2 | h2
      · rw [h2, hp]
      · cases hl : mapLookup p.Id hpc.Pointables with
        | none =>
          rw [hl] at h2
          cases h2
        | some m =>
          rw [hl] at h2
          exact hs.2 _ (mapLookup_mem _ _ _ hl) q h2
    · exact hs.2 e h1 q hq
  | fingerDisappeared =>
    unfold ListenForPointables at hstep
    cases hc : checkPair (collectPair now hpc.Pointables) with
    | none => simp [hc] at hstep
    | some r =>
      simp only [hc, Option.some.injEq, Prod.mk.injEq] at hstep
      rw [← hstep.1]
      exact ⟨hs.1, fun e he q hq => hs.2 e (mem_removeOld _ _ _ he) q hq⟩

theorem Sound_applyAction (now : Int) (pl : Pipeline) (a : Action)
    (hs : pl.Sound) (ha : a.WellAddressed) : (applyAction now pl a).Sound := by
  have hdeliver : ∀ handId sig, (∀ p, sig = Signal.pointable p → p.HandId = handId) →
      (deliver now pl handId sig).Sound := by
    intro handId sig hsig
    cases hl : mapLookup handId pl.trackers with
    | none =>
      have hd : deliver now pl handId sig = { pl with halted := true } := by
        simp [deliver, hl]
      rw [hd]
      exact hs
    | some hpc =>
      cases hstep : ListenForPointables now hpc sig with
      | none =>
        have hd : deliver now pl handId sig = { pl with halted := true } := by
          simp [deliver, hl, hstep]
        rw [hd]
        exact hs
      | some r =>
        have hd : deliver now pl handId sig =
            { pl with trackers := mapInsert handId r.1 pl.trackers
                      emitted := pl.emitted ++ r.2.toList } := by
          simp [deliver, hl, hstep]
        rw [hd]
        intro k tr htr
        have htr1 : (if k = handId then some r.1 else mapLookup k pl.trackers) = some tr := by
          rw [← mapLookup_mapInsert]
          exact htr
        split at htr1
        · rename_i hk
          rw [← Option.some.inj htr1, hk]
          exact Sound_listen now handId hpc r.1 sig r.2 (hs _ _ hl) hsig hstep
        · exact hs k tr htr1
  cases a with
  | spawn handId hpc =>
    intro k tr htr
    have htr1 : (if k = handId then some hpc else mapLookup k pl.trackers) = some tr := by
      rw [← mapLookup_mapInsert]
      exact htr
    split at htr1
    · rename_i hk
      rw [← Option.some.inj htr1, hk]
      refine ⟨ha.1, ?_⟩
      intro e he
      rw [ha.2] at he
      cases he
    · exact hs k tr htr1
  | sendPointable handId p =>
    apply hdeliver
    intro q hq
    injection hq with hq
    rw [← hq]
    exact ha
  | sendDisappeared handId =>
    apply hdeliver
    intro q hq
    cases hq

theorem Sound_runActions (clock : Nat → Int) (n : Nat) (acts : List Action) (pl : Pipeline)
    (hs : pl.Sound) (ha : ∀ a ∈ acts, a.WellAddressed) :
    (runActions clock n acts pl).Sound := by
  induction acts generalizing n pl with
  | nil => exact hs
  | cons a rest ih =>
    unfold runActions
    split
    · exact hs
    · exact ih _ _ (Sound_applyAction _ _ _ hs (ha a (List.mem_cons_self _ _)))
        (fun b hb => ha b (List.mem_cons_of_mem _ hb))

theorem Sound_init : Pipeline.init.Sound := by
  intro k hpc h
  cases h

theorem wellAddressed_routeFrames (st : RouterState) (frames : List Frame) (a : Action)
    (ha : a ∈ (routeFrames st frames).2.flatten) : a.WellAddressed := by
  induction frames generalizing st with
  | nil => simp [routeFrames] at ha
  | cons f rest ih =>
    simp only [routeFrames, List.flatten_cons, List.mem_append, routeFrame] at ha
    rcases ha with (ha | ha) | ha
    · obtain ⟨q, _, _, hcase⟩ := mem_routePointables st f _ ha
      rcases hcase with hcase | hcase
      · rw [hcase]
        exact ⟨rfl, rfl⟩
      · rw [hcase]
        exact rfl
    · obtain ⟨e, _, hea⟩ := mem_notifyDisappeared _ _ _ ha
      rw [hea]
      exact trivial
    · exact ih _ ha

theorem Halfway_eq (a b : ℚ) : Halfway a b = (a + b) / 2 := by
  unfold Halfway
  ring

/-- C5: take the tracker registered under hand `h` at any point of a run of the pipeline
(after any number `n` of router actions). If it answers a disappearance signal with a
pinch, the tracker's own id is `h`, the pinch carries hand id `h`, and the X, Y and Z of the
pinch are the midpoints, axis by axis, of the latest samples of the two candidates. -/
theorem C5_pinch_midpoint_and_hand (clock : Nat → Int) (frames : List Frame) (n : Nat)
    (h : Int) (hpc hpc' : HandPinchCheck) (now : Int) (pinch : Pinch)
    (hreach : mapLookup h
      (runActions clock 0 ((RouteHand frames).2.flatten.take n) Pipeline.init).trackers
        = some hpc)
    (hemit : ListenForPointables now hpc Signal.fingerDisappeared = some (hpc', some pinch)) :
    hpc.HandId = h ∧ pinch.HandId = h ∧
    ∃ a b goA goB, collectPair now hpc.Pointables = [a, b] ∧
      a.History.ReadFromEnd 0 = some goA ∧ b.History.ReadFromEnd 0 = some goB ∧
      pinch.X = (goA.TipPosition.1 + goB.TipPosition.1) / 2 ∧
      pinch.Y = (goA.TipPosition.2.1 + goB.TipPosition.2.1) / 2 ∧
      pinch.Z = (goA.TipPosition.2.2 + goB.TipPosition.2.2) / 2 := by
  have hsound : hpc.Sound h := by
    refine Sound_runActions clock 0 _ Pipeline.init Sound_init ?_ h hpc hreach
    intro a ha
    exact wellAddressed_routeFrames _ frames a (List.mem_of_mem_take ha)
  obtain ⟨a, b, goA, goB, hpair, hA, hB, _, _, hpinch⟩ :=
    checkPair_some _ pinch (listen_disappeared_some now hpc hpc' pinch hemit)
  have ha : a ∈ collectPair now hpc.Pointables := by simp [hpair]
  obtain ⟨e, he, hea⟩ := mem_collectPair _ _ _ ha
  have hgoA : goA.HandId = h :=
    hsound.2 e he goA (hea ▸ mem_items_of_ReadFromEnd _ _ _ hA)
  refine ⟨hsound.1, ?_, a, b, goA, goB, hpair, hA, hB, ?_, ?_, ?_⟩
  · rw [hpinch]
    exact hgoA
  · rw [hpinch]
    exact Halfway_eq _ _
  · rw [hpinch]
    exact Halfway_eq _ _
  · rw [hpinch]
    exact Halfway_eq _ _

/-- Witness of C5: after the pointables of `closingFrames` the tracker of hand 1 answers
the disappearance signal with the pinch at (16, 0, 0) for hand 1. -/
theorem C5_pinch_midpoint_and_hand_witness :
    closingTracker.HandId = 1 ∧
    ({ X := 16, Y := 0, Z := 0, HandId := 1 } : Pinch).HandId = 1 ∧
    ∃ a b goA goB, collectPair 14 closingTracker.Pointables = [a, b] ∧
      a.History.ReadFromEnd 0 = some goA ∧ b.History.ReadFromEnd 0 = some goB ∧
      ({ X := 16, Y := 0, Z := 0, HandId := 1 } : Pinch).X
        = (goA.TipPosition.1 + goB.TipPosition.1) / 2 ∧
      ({ X := 16, Y := 0, Z := 0, HandId := 1 } : Pinch).Y
        = (goA.TipPosition.2.1 + goB.TipPosition.2.1) / 2 ∧
      ({ X := 16, Y := 0, Z := 0, HandId := 1 } : Pinch).Z
        = (goA.TipPosition.2.2 + goB.TipPosition.2.2) / 2 :=
  C5_pinch_midpoint_and_hand (fun n => (n : Int)) closingFrames 14 1 closingTracker
    closingTracker 14 { X := 16, Y := 0, Z := 0, HandId := 1 } (by decide!) (by decide!)

/-! ## The end-to-end scenario: the router -/

theorem routeFrame_first (sw : Bool) (x y : ℚ × ℚ × ℚ) :
    routeFrame RouterState.init (frameOf sw x y) =
      (steadyState,
        Action.spawn 1 { HandId := 1, LastUpdate := [], Pointables := [] }
          :: frameActions sw x y) := by
  cases sw <;> rfl

theorem routeFrame_steady (sw : Bool) (x y : ℚ × ℚ × ℚ) :
    routeFrame steadyState (frameOf sw x y) = (steadyState, frameActions sw x y) := by
  cases sw <;> rfl

theorem routeFrame_last (x : ℚ × ℚ × ℚ) :
    (routeFrame steadyState [finger10 x]).2 =
      [Action.sendPointable 1 (finger10 x), Action.sendDisappeared 1] := by
  rfl

theorem range_eight : List.range 8 = [0, 1, 2, 3, 4, 5, 6, 7] := by decide

theorem trace_pinchScenario (sw : Nat → Bool) (a b : Nat → ℚ × ℚ × ℚ) :
    (RouteHand (pinchScenario sw a b)).2.flatten =
      Action.spawn 1 { HandId := 1, LastUpdate := [], Pointables := [] } ::
      (frameActions (sw 0) (a 0) (b 0) ++ (frameActions (sw 1) (a 1) (b 1) ++
      (frameActions (sw 2) (a 2) (b 2) ++ (frameActions (sw 3) (a 3) (b 3) ++
      (frameActions (sw 4) (a 4) (b 4) ++ (frameActions (sw 5) (a 5) (b 5) ++
      (frameActions (sw 6) (a 6) (b 6) ++ (frameActions (sw 7) (a 7) (b 7) ++
      [Action.sendPointable 1 (finger10 (a 8)), Action.sendDisappeared 1])))))))) := by
  simp only [RouteHand, pinchScenario, range_eight, List.map_cons, List.map_nil,
    List.cons_append, List.nil_append, routeFrames, routeFrame_first, routeFrame_steady,
    routeFrame_last, List.flatten_cons, List.flatten_nil, List.append_nil, List.append_assoc]

/-! ## The end-to-end scenario: the tracker -/

theorem stale_of_inWindow (T now t : Int) (hnow : InWindow T now) (ht : InWindow T t) :
    ¬ now - t > STALE_WINDOW := by
  unfold InWindow RECENT_WINDOW at hnow ht
  unfold STALE_WINDOW
  omega

theorem listen_finger10 (o : Bool) (now t10 t11 : Int) (xs ys : List (ℚ × ℚ × ℚ))
    (x : ℚ × ℚ × ℚ) (hlen : xs.length < 15) (hf : ¬ now - t11 > STALE_WINDOW) :
    ListenForPointables now (scenarioTracker o xs ys t10 t11) (Signal.pointable (finger10 x))
      = some (scenarioTracker o (xs ++ [x]) ys now t11, none) := by
  have hdrop : xs.length + 1 - 15 = 0 := by omega
  have hf0 : ¬ (0 : Int) > STALE_WINDOW := by decide
  cases o <;>
  simp [ListenForPointables, scenarioTracker, history10, history11, mapLookup, mapInsert, removeOld, Circ.AddItem,
    finger10, MAX_POINTABLES_PER_HISTORY, hdrop, hf, hf0, List.filter_cons]

theorem listen_finger11 (o : Bool) (now t10 t11 : Int) (xs ys : List (ℚ × ℚ × ℚ))
    (y : ℚ × ℚ × ℚ) (hlen : ys.length < 15) (hf : ¬ now - t10 > STALE_WINDOW) :
    ListenForPointables now (scenarioTracker o xs ys t10 t11) (Signal.pointable (finger11 y))
      = some (scenarioTracker o xs (ys ++ [y]) t10 now, none) := by
  have hdrop : ys.length + 1 - 15 = 0 := by omega
  have hf0 : ¬ (0 : Int) > STALE_WINDOW := by decide
  cases o <;>
  simp [ListenForPointables, scenarioTracker, history10, history11, mapLookup, mapInsert, removeOld, Circ.AddItem,
    finger11, MAX_POINTABLES_PER_HISTORY, hdrop, hf, hf0, List.filter_cons]

theorem deliver_single (now : Int) (hpc hpc' : HandPinchCheck) (em : List Pinch)
    (sig : Signal) (sent : Option Pinch)
    (h : ListenForPointables now hpc sig = some (hpc', sent)) :
    deliver now { trackers := [(1, hpc)], emitted := em, halted := false } 1 sig
      = { trackers := [(1, hpc')], emitted := em ++ sent.toList, halted := false } := by
  simp [deliver, mapLookup, mapInsert, h]

theorem run_frame (clock : Nat → Int) (T : Int) (n : Nat) (sw o : Bool)
    (xs ys : List (ℚ × ℚ × ℚ)) (x y : ℚ × ℚ × ℚ) (t10 t11 : Int) (em : List Pinch)
    (hx : xs.length < 15) (hy : ys.length < 15)
    (h10 : InWindow T t10) (h11 : InWindow T t11)
    (hn : InWindow T (clock n)) (hn1 : InWindow T (clock (n + 1))) :
    ∃ u10 u11, InWindow T u10 ∧ InWindow T u11 ∧ ∀ rest,
      runActions clock n (frameActions sw x y ++ rest)
          { trackers := [(1, scenarioTracker o xs ys t10 t11)], emitted := em, halted := false }
        = runActions clock (n + 2) rest
          { trackers := [(1, scenarioTracker o (xs ++ [x]) (ys ++ [y]) u10 u11)],
            emitted := em, halted := false } := by
  cases sw with
  | false =>
    refine ⟨clock n, clock (n + 1), hn, hn1, fun rest => ?_⟩
    have s1 := deliver_single (clock n) _ _ em _ _
      (listen_finger10 o (clock n) t10 t11 xs ys x hx (stale_of_inWindow T _ _ hn h11))
    have s2 := deliver_single (clock (n + 1)) _ _ em _ _
      (listen_finger11 o (clock (n + 1)) (clock n) t11 (xs ++ [x]) ys y hy
        (stale_of_inWindow T _ _ hn1 hn))
    simp only [Option.toList, List.append_nil] at s1 s2
    simp only [frameActions, Bool.false_eq_true, if_false, List.cons_append, List.nil_append,
      runActions, applyAction, s1, s2]
    rfl
  | true =>
    refine ⟨clock (n + 1), clock n, hn1, hn, fun rest => ?_⟩
    have s1 := deliver_single (clock n) _ _ em _ _
      (listen_finger11 o (clock n) t10 t11 xs ys y hy (stale_of_inWindow T _ _ hn h10))
    have s2 := deliver_single (clock (n + 1)) _ _ em _ _
      (listen_finger10 o (clock (n + 1)) t10 (clock n) xs (ys ++ [y]) x hx
        (stale_of_inWindow T _ _ hn1 hn))
    simp only [Option.toList, List.append_nil] at s1 s2
    simp only [frameActions, if_true, List.cons_append, List.nil_append,
      runActions, applyAction, s1, s2]
    rfl

theorem run_first_frame (clock : Nat → Int) (T : Int) (sw : Bool) (x y : ℚ × ℚ × ℚ)
    (h1 : InWindow T (clock 1)) (h2 : InWindow T (clock 2)) :
    ∃ u10 u11, InWindow T u10 ∧ InWindow T u11 ∧ ∀ rest,
      runActions clock 0
          (Action.spawn 1 { HandId := 1, LastUpdate := [], Pointables := [] }
            :: (frameActions sw x y ++ rest)) Pipeline.init
        = runActions clock 3 rest
          { trackers := [(1, scenarioTracker sw [x] [y] u10 u11)],
            emitted := [], halted := false } := by
  have hf0 : ¬ (0 : Int) > STALE_WINDOW := by decide
  have hf := stale_of_inWindow T _ _ h2 h1
  cases sw with
  | false =>
    refine ⟨clock 1, clock 2, h1, h2, fun rest => ?_⟩
    simp [runActions, applyAction, Pipeline.init, frameActions, deliver, mapLookup, mapInsert,
      ListenForPointables, removeOld, Circ.AddItem, NewCircBuf, finger10, finger11,
      scenarioTracker, history10, history11, MAX_POINTABLES_PER_HISTORY, hf0, hf,
      List.filter_cons]
  | true =>
    refine ⟨clock 2, clock 1, h2, h1, fun rest => ?_⟩
    simp [runActions, applyAction, Pipeline.init, frameActions, deliver, mapLookup, mapInsert,
      ListenForPointables, removeOld, Circ.AddItem, NewCircBuf, finger10, finger11,
      scenarioTracker, history10, history11, MAX_POINTABLES_PER_HISTORY, hf0, hf,
      List.filter_cons]

theorem DistanceBetweenPointables_comm (p q : Pointable) :
    DistanceBetweenPointables p q = DistanceBetweenPointables q p := by
  simp only [DistanceBetweenPointables, DistanceBetween, XYZFromPointable]
  ring

theorem checkPair_pinch (a b : MyPointable) (goA goB : Pointable)
    (hA : a.History.ReadFromEnd 0 = some goA) (hB : b.History.ReadFromEnd 0 = some goB)
    (hd : DistanceBetweenPointables goA goB < PINCH_DISTANCE_THRESHOLD)
    (hconv : CalculateConvergence a b = some true) :
    checkPair [a, b] = some (some (SetFrom2Pointables goA goB)) := by
  simp [checkPair, hA, hB, hd, hconv]

theorem SetFrom2Pointables_fingers (x y : ℚ × ℚ × ℚ) :
    SetFrom2Pointables (finger10 x) (finger11 y)
      = { X := (x.1 + y.1) / 2, Y := (x.2.1 + y.2.1) / 2, Z := (x.2.2 + y.2.2) / 2,
          HandId := 1 } ∧
    SetFrom2Pointables (finger11 y) (finger10 x)
      = { X := (x.1 + y.1) / 2, Y := (x.2.1 + y.2.1) / 2, Z := (x.2.2 + y.2.2) / 2,
          HandId := 1 } := by
  constructor
  · simp [SetFrom2Pointables, XYZFromPointable, finger10, finger11, Halfway_eq]
  · simp [SetFrom2Pointables, XYZFromPointable, finger10, finger11, Halfway_eq, add_comm]

theorem loopOffsets_eight : loopOffsets 8 = [0, 2, 4, 6] := by decide

theorem converging_of_sampled (mp p : MyPointable) (d0 d2 d4 d6 : ℚ)
    (hmax : maxCount mp p = 8)
    (hds : sampledDistances mp p [0, 2, 4, 6] = some [d0, d2, d4, d6])
    (h02 : d2 < d0) (h24 : d4 < d2) (h46 : d6 < d4) :
    CalculateConvergence mp p = some true := by
  rw [CalculateConvergence_eq, hmax, loopOffsets_eight, hds]
  have hz : countRegressions 0 [d0, d2, d4, d6] = 0 := by
    apply countRegressions_zero_of_decreasing
    simp [h02, h24, h46]
  simp [hz]

theorem listen_scenario_end (o : Bool) (T t10 t11 : Int)
    (x0 x1 x2 x3 x4 x5 x6 x7 x8 y0 y1 y2 y3 y4 y5 y6 y7 : ℚ × ℚ × ℚ)
    (h10 : InWindow T t10) (h11 : InWindow T t11)
    (h02 : DistanceBetweenPointables (finger10 x2) (finger11 y2)
      < DistanceBetweenPointables (finger10 x0) (finger11 y0))
    (h24 : DistanceBetweenPointables (finger10 x4) (finger11 y4)
      < DistanceBetweenPointables (finger10 x2) (finger11 y2))
    (h46 : DistanceBetweenPointables (finger10 x6) (finger11 y6)
      < DistanceBetweenPointables (finger10 x4) (finger11 y4))
    (hlast : DistanceBetweenPointables (finger10 x8) (finger11 y7) < 1900) :
    ListenForPointables T
        (scenarioTracker o [x0, x1, x2, x3, x4, x5, x6, x7, x8]
          [y0, y1, y2, y3, y4, y5, y6, y7] t10 t11) Signal.fingerDisappeared
      = some (scenarioTracker o [x0, x1, x2, x3, x4, x5, x6, x7, x8]
          [y0, y1, y2, y3, y4, y5, y6, y7] t10 t11,
        some { X := (x8.1 + y7.1) / 2, Y := (x8.2.1 + y7.2.1) / 2,
               Z := (x8.2.2 + y7.2.2) / 2, HandId := 1 }) := by
  have hT : InWindow T T := by
    unfold InWindow RECENT_WINDOW
    omega
  have hs10 := stale_of_inWindow T T t10 hT h10
  have hs11 := stale_of_inWindow T T t11 hT h11
  have hr10 : T - t10 < RECENT_WINDOW := by
    unfold InWindow at h10
    omega
  have hr11 : T - t11 < RECENT_WINDOW := by
    unfold InWindow at h11
    omega
  cases o with
  | false =>
    have hpair : collectPair T (scenarioTracker false [x0, x1, x2, x3, x4, x5, x6, x7, x8]
        [y0, y1, y2, y3, y4, y5, y6, y7] t10 t11).Pointables
        = [history10 [x0, x1, x2, x3, x4, x5, x6, x7, x8] t10,
           history11 [y0, y1, y2, y3, y4, y5, y6, y7] t11] := by
      simp [collectPair, scenarioTracker, history10, history11, isCandidate, hr10, hr11,
        List.filter_cons]
    have hconv := converging_of_sampled
      (history10 [x0, x1, x2, x3, x4, x5, x6, x7, x8] t10)
      (history11 [y0, y1, y2, y3, y4, y5, y6, y7] t11)
      _ _ _ _ (by simp [maxCount_eq, history10, history11]) rfl h02 h24 h46
    have hcheck := checkPair_pinch
      (history10 [x0, x1, x2, x3, x4, x5, x6, x7, x8] t10)
      (history11 [y0, y1, y2, y3, y4, y5, y6, y7] t11) (finger10 x8) (finger11 y7) rfl rfl
      (by unfold PINCH_DISTANCE_THRESHOLD; exact hlast) hconv
    unfold ListenForPointables
    rw [hpair, hcheck, (SetFrom2Pointables_fingers x8 y7).1]
    simp [scenarioTracker, history10, history11, removeOld, hs10, hs11, List.filter_cons]
  | true =>
    have hpair : collectPair T (scenarioTracker true [x0, x1, x2, x3, x4, x5, x6, x7, x8]
        [y0, y1, y2, y3, y4, y5, y6, y7] t10 t11).Pointables
        = [history11 [y0, y1, y2, y3, y4, y5, y6, y7] t11,
           history10 [x0, x1, x2, x3, x4, x5, x6, x7, x8] t10] := by
      simp [collectPair, scenarioTracker, history10, history11, isCandidate, hr10, hr11,
        List.filter_cons]
    rw [DistanceBetweenPointables_comm (finger10 x2), DistanceBetweenPointables_comm (finger10 x0)]
      at h02
    rw [DistanceBetweenPointables_comm (finger10 x4), DistanceBetweenPointables_comm (finger10 x2)]
      at h24
    rw [DistanceBetweenPointables_comm (finger10 x6), DistanceBetweenPointables_comm (finger10 x4)]
      at h46
    rw [DistanceBetweenPointables_comm] at hlast
    have hconv := converging_of_sampled
      (history11 [y0, y1, y2, y3, y4, y5, y6, y7] t11)
      (history10 [x0, x1, x2, x3, x4, x5, x6, x7, x8] t10)
      _ _ _ _ (by simp [maxCount_eq, history10, history11]) rfl h02 h24 h46
    have hcheck := checkPair_pinch
      (history11 [y0, y1, y2, y3, y4, y5, y6, y7] t11)
      (history10 [x0, x1, x2, x3, x4, x5, x6, x7, x8] t10) (finger11 y7) (finger10 x8) rfl rfl
      (by unfold PINCH_DISTANCE_THRESHOLD; exact hlast) hconv
    unfold ListenForPointables
    rw [hpair, hcheck, (SetFrom2Pointables_fingers x8 y7).2]
    simp [scenarioTracker, history10, history11, removeOld, hs10, hs11, List.filter_cons]

theorem emitted_runActions_of_no_notify (clock : Nat → Int) (n : Nat) (acts : List Action)
    (pl : Pipeline) (h : ∀ x ∈ acts, ∀ k, x ≠ Action.sendDisappeared k) :
    (runActions clock n acts pl).emitted = pl.emitted := by
  induction acts generalizing n pl with
  | nil => rfl
  | cons x rest ih =>
    unfold runActions
    split
    · rfl
    · rw [ih _ _ (fun y hy => h y (List.mem_cons_of_mem _ hy))]
      cases x with
      | spawn handId hpc => rfl
      | sendPointable handId p =>
        simp only [applyAction, deliver]
        cases mapLookup handId pl.trackers with
        | none => rfl
        | some hpc => simp [ListenForPointables]
      | sendDisappeared handId =>
        exact absurd rfl (h _ (List.mem_cons_self _ _) handId)

theorem frameActions_no_notify (sw : Bool) (x y : ℚ × ℚ × ℚ) (act : Action)
    (h : act ∈ frameActions sw x y) (k : Int) : act ≠ Action.sendDisappeared k := by
  cases sw <;>
  · simp only [frameActions, Bool.false_eq_true, if_false, if_true, List.mem_cons,
      List.mem_singleton, List.mem_nil_iff, or_false] at h
    rcases h with h | h <;> (rw [h]; intro hc; cases hc)

theorem no_notify_in_two_finger_frames (sw : Nat → Bool) (a b : Nat → ℚ × ℚ × ℚ) (m : Nat) (hm : m ≤ 8) :
    ∀ x ∈ (RouteHand ((pinchScenario sw a b).take m)).2.flatten,
      ∀ k, x ≠ Action.sendDisappeared k := by
  intro x hx k
  interval_cases m <;>
  simp only [RouteHand, pinchScenario, range_eight, List.map_cons, List.map_nil,
    List.cons_append, List.nil_append, List.take_succ_cons, List.take_zero, routeFrames,
    routeFrame_first, routeFrame_steady, List.flatten_cons, List.flatten_nil,
    List.append_nil, List.mem_append, List.mem_cons, List.mem_nil_iff, or_false] at hx
  all_goals
    rcases hx with hx | hx
    · rw [hx]
      intro hc
      cases hc
    · repeat (first
        | exact frameActions_no_notify _ _ _ x hx k
        | rcases hx with hx | hx)

/-- C9: in the stream of the scenario (8 frames showing fingers 10 and 11 of hand 1, in
any order within a frame, at squared distances that decrease strictly from frame to frame,
then a frame showing finger 10 alone, less than 1900 away from the last position of finger
11), with every sample handled less than 50 ms before the disappearance signal, the
pipeline sends exactly one pinch, for hand 1, halfway between the latest positions of the
two fingers, does not stop, and sends no pinch on any prefix of the first 8 frames. -/
theorem C9_end_to_end (clock : Nat → Int) (sw : Nat → Bool) (a b : Nat → ℚ × ℚ × ℚ)
    (hclock : ∀ n, 1 ≤ n → n ≤ 17 → InWindow (clock 18) (clock n))
    (hdec : ∀ k, k < 7 →
      DistanceBetweenPointables (finger10 (a (k + 1))) (finger11 (b (k + 1)))
        < DistanceBetweenPointables (finger10 (a k)) (finger11 (b k)))
    (hlast : DistanceBetweenPointables (finger10 (a 8)) (finger11 (b 7)) < 1900) :
    (runPipeline clock (pinchScenario sw a b)).emitted
      = [{ X := ((a 8).1 + (b 7).1) / 2, Y := ((a 8).2.1 + (b 7).2.1) / 2,
           Z := ((a 8).2.2 + (b 7).2.2) / 2, HandId := 1 }] ∧
    (runPipeline clock (pinchScenario sw a b)).halted = false ∧
    ∀ m, m ≤ 8 → (runPipeline clock ((pinchScenario sw a b).take m)).emitted = [] := by
  have h02 := lt_trans (hdec 1 (by omega)) (hdec 0 (by omega))
  have h24 := lt_trans (hdec 3 (by omega)) (hdec 2 (by omega))
  have h46 := lt_trans (hdec 5 (by omega)) (hdec 4 (by omega))
  have hrun : ∃ t10 t11, runPipeline clock (pinchScenario sw a b) =
      { trackers := [(1, scenarioTracker (sw 0)
          [a 0, a 1, a 2, a 3, a 4, a 5, a 6, a 7, a 8]
          [b 0, b 1, b 2, b 3, b 4, b 5, b 6, b 7] t10 t11)]
        emitted := [{ X := ((a 8).1 + (b 7).1) / 2, Y := ((a 8).2.1 + (b 7).2.1) / 2,
                      Z := ((a 8).2.2 + (b 7).2.2) / 2, HandId := 1 }]
        halted := false } := by
    have hc : ∀ n, 1 ≤ n → n ≤ 17 → InWindow (clock 18) (clock n) := hclock
    unfold runPipeline
    rw [trace_pinchScenario]
    obtain ⟨t0, u0, ht0, hu0, e0⟩ := run_first_frame clock (clock 18) (sw 0) (a 0) (b 0)
      (hc 1 (by omega) (by omega)) (hc 2 (by omega) (by omega))
    obtain ⟨t1, u1, ht1, hu1, e1⟩ := run_frame clock (clock 18) 3 (sw 1) (sw 0)
      [a 0] [b 0] (a 1) (b 1) t0 u0 [] (by simp) (by simp) ht0 hu0
      (hc 3 (by omega) (by omega)) (hc 4 (by omega) (by omega))
    obtain ⟨t2, u2, ht2, hu2, e2⟩ := run_frame clock (clock 18) 5 (sw 2) (sw 0)
      [a 0, a 1] [b 0, b 1] (a 2) (b 2) t1 u1 [] (by simp) (by simp) ht1 hu1
      (hc 5 (by omega) (by omega)) (hc 6 (by omega) (by omega))
    obtain ⟨t3, u3, ht3, hu3, e3⟩ := run_frame clock (clock 18) 7 (sw 3) (sw 0)
      [a 0, a 1, a 2] [b 0, b 1, b 2] (a 3) (b 3) t2 u2 [] (by simp) (by simp) ht2 hu2
      (hc 7 (by omega) (by omega)) (hc 8 (by omega) (by omega))
    obtain ⟨t4, u4, ht4, hu4, e4⟩ := run_frame clock (clock 18) 9 (sw 4) (sw 0)
      [a 0, a 1, a 2, a 3] [b 0, b 1, b 2, b 3] (a 4) (b 4) t3 u3 [] (by simp) (by simp)
      ht3 hu3 (hc 9 (by omega) (by omega)) (hc 10 (by omega) (by omega))
    obtain ⟨t5, u5, ht5, hu5, e5⟩ := run_frame clock (clock 18) 11 (sw 5) (sw 0)
      [a 0, a 1, a 2, a 3, a 4] [b 0, b 1, b 2, b 3, b 4] (a 5) (b 5) t4 u4 []
      (by simp) (by simp) ht4 hu4 (hc 11 (by omega) (by omega)) (hc 12 (by omega) (by omega))
    obtain ⟨t6, u6, ht6, hu6, e6⟩ := run_frame clock (clock 18) 13 (sw 6) (sw 0)
      [a 0, a 1, a 2, a 3, a 4, a 5] [b 0, b 1, b 2, b 3, b 4, b 5] (a 6) (b 6) t5 u5 []
      (by simp) (by simp) ht5 hu5 (hc 13 (by omega) (by omega)) (hc 14 (by omega) (by omega))
    obtain ⟨t7, u7, ht7, hu7, e7⟩ := run_frame clock (clock 18) 15 (sw 7) (sw 0)
      [a 0, a 1, a 2, a 3, a 4, a 5, a 6] [b 0, b 1, b 2, b 3, b 4, b 5, b 6] (a 7) (b 7)
      t6 u6 [] (by simp) (by simp) ht6 hu6
      (hc 15 (by omega) (by omega)) (hc 16 (by omega) (by omega))
    simp only [List.cons_append, List.nil_append] at e1 e2 e3 e4 e5 e6 e7
    rw [e0, e1, e2, e3, e4, e5, e6, e7]
    have s8 := deliver_single (clock 17) _ _ [] _ _
      (listen_finger10 (sw 0) (clock 17) t7 u7 [a 0, a 1, a 2, a 3, a 4, a 5, a 6, a 7]
        [b 0, b 1, b 2, b 3, b 4, b 5, b 6, b 7] (a 8) (by simp)
        (stale_of_inWindow _ _ _ (hc 17 (by omega) (by omega)) hu7))
    have s9 := deliver_single (clock 18) _ _ [] _ _
      (listen_scenario_end (sw 0) (clock 18) (clock 17) u7 (a 0) (a 1) (a 2) (a 3) (a 4) (a 5)
        (a 6) (a 7) (a 8) (b 0) (b 1) (b 2) (b 3) (b 4) (b 5) (b 6) (b 7)
        (hc 17 (by omega) (by omega)) hu7 h02 h24 h46 hlast)
    simp only [Option.toList, List.append_nil, List.cons_append, List.nil_append] at s8 s9
    refine ⟨clock 17, u7, ?_⟩
    simp only [runActions, applyAction, s8, s9]
    rfl
  obtain ⟨t10, t11, hrun⟩ := hrun
  refine ⟨by rw [hrun], by rw [hrun], ?_⟩
  intro m hm
  unfold runPipeline
  rw [emitted_runActions_of_no_notify _ _ _ _ (no_notify_in_two_finger_frames sw a b m hm)]
  rfl

/-- Witness of C9: finger 10 at rest, finger 11 closing in from squared distance 4900 to
1764, one action per nanosecond: one pinch, at (21, 0, 0), for hand 1. -/
theorem C9_end_to_end_witness :
    (runPipeline tickClock (pinchScenario (fun _ => false) restingAt closingIn)).emitted
      = [{ X := 21, Y := 0, Z := 0, HandId := 1 }] ∧
    (runPipeline tickClock (pinchScenario (fun _ => false) restingAt closingIn)).halted
      = false ∧
    ∀ m, m ≤ 8 →
      (runPipeline tickClock
        ((pinchScenario (fun _ => false) restingAt closingIn).take m)).emitted = [] := by
  have h := C9_end_to_end tickClock (fun _ => false) restingAt closingIn
    (by
      intro n h1 h2
      unfold InWindow RECENT_WINDOW tickClock
      constructor <;> omega)
    (by
      intro k hk
      interval_cases k <;>
        norm_num [DistanceBetweenPointables, DistanceBetween, XYZFromPointable, finger10,
          finger11, restingAt, closingIn])
    (by
      norm_num [DistanceBetweenPointables, DistanceBetween, XYZFromPointable, finger10,
        finger11, restingAt, closingIn])
  refine ⟨?_, h.2.1, h.2.2⟩
  rw [h.1]
  norm_num [restingAt, closingIn]

/-! ## Geometry -/

/-- C11: the distance of two positions is the same in both orders, and it is the sum of the
squares of the per-axis differences, without a square root. -/
theorem C11_distance_symmetric (x y z x2 y2 z2 : ℚ) (p q : Pointable) :
    DistanceBetween x y z x2 y2 z2 = DistanceBetween x2 y2 z2 x y z ∧
    DistanceBetween x y z x2 y2 z2 = (x - x2) ^ 2 + (y - y2) ^ 2 + (z - z2) ^ 2 ∧
    DistanceBetweenPointables p q = DistanceBetweenPointables q p := by
  refine ⟨?_, rfl, DistanceBetweenPointables_comm p q⟩
  simp only [DistanceBetween]
  ring

/-! ## Eviction -/

/-- C13: the eviction pass applied twice at the same instant leaves the map that one pass
leaves. -/
theorem C13_eviction_idempotent (now : Int) (pointables : List (Int × MyPointable)) :
    removeOld now (removeOld now pointables) = removeOld now pointables := by
  unfold removeOld
  rw [List.filter_filter]
  simp

/-- C14: a tracker handling a pointable always goes on and sends no pinch; handling a
disappearance signal it either stops in a fatal exit or sends at most one pinch; and in the
pipeline one delivered signal adds at most one pinch to the pinch channel, none for a
pointable. -/
theorem C14_at_most_one_pinch (now : Int) (h : HandPinchCheck) (pl : Pipeline)
    (handId : Int) (sig : Signal) :
    (∀ p, ∃ h1, ListenForPointables now h (Signal.pointable p) = some (h1, none)) ∧
    (ListenForPointables now h Signal.fingerDisappeared = none ∨
      ∃ h1 sent, ListenForPointables now h Signal.fingerDisappeared = some (h1, sent) ∧
        sent.toList.length ≤ 1) ∧
    (∃ l, (deliver now pl handId sig).emitted = pl.emitted ++ l ∧ l.length ≤ 1 ∧
      (∀ p, sig = Signal.pointable p → l = [])) := by
  refine ⟨fun p => ⟨_, rfl⟩, ?_, ?_⟩
  · cases hc : ListenForPointables now h Signal.fingerDisappeared with
    | none => exact Or.inl rfl
    | some r =>
      refine Or.inr ⟨r.1, r.2, rfl, ?_⟩
      cases r.2 <;> simp
  · cases hl : mapLookup handId pl.trackers with
    | none =>
      refine ⟨[], ?_, by simp, fun _ _ => rfl⟩
      simp [deliver, hl]
    | some hpc =>
      cases hstep : ListenForPointables now hpc sig with
      | none =>
        refine ⟨[], ?_, by simp, fun _ _ => rfl⟩
        simp [deliver, hl, hstep]
      | some r =>
        refine ⟨r.2.toList, ?_, ?_, ?_⟩
        · simp [deliver, hl, hstep]
        · cases r.2 <;> simp
        · intro p hp
          rw [hp] at hstep
          simp only [ListenForPointables, Option.some.injEq] at hstep
          rw [← hstep]
          rfl

/-- C15: two well-formed histories of capacity 15 that received 17 samples each hold 15
samples, yet the walk of `CalculateConvergence` takes the offset 16, beyond both
occupancies: the read brings back nothing and the test ends in the fatal exit. The same
happens in the pipeline: after 17 frames showing two fingers of a hand, the disappearance
of one of them stops the process without a pinch. -/
theorem C15_read_beyond_occupancy :
    (stillFinger 17 0).History.WF ∧ (approachingFinger 17 0).History.WF ∧
    6 ≤ (stillFinger 17 0).History.Added ∧ 6 ≤ (approachingFinger 17 0).History.Added ∧
    16 ∈ loopOffsets (maxCount (stillFinger 17 0) (approachingFinger 17 0)) ∧
    (stillFinger 17 0).History.items.length = 15 ∧
    (approachingFinger 17 0).History.items.length = 15 ∧
    (stillFinger 17 0).History.ReadFromStart 16 = none ∧
    CalculateConvergence (stillFinger 17 0) (approachingFinger 17 0) = none ∧
    (runPipeline tickClock longFrames).halted = true ∧
    (runPipeline tickClock longFrames).emitted = [] := by
  refine ⟨?_, ?_, by decide, by decide, by decide, by decide, by decide, by decide,
    by decide!, by decide!, by decide!⟩
  · unfold Circ.WF
    decide
  · unfold Circ.WF
    decide

theorem mapLookup_filter {β : Type} (k : Int) (v : β) (m : List (Int × β))
    (P : Int × β → Bool) (h : mapLookup k m = some v) (hP : P (k, v) = true) :
    mapLookup k (m.filter P) = some v := by
  induction m with
  | nil => cases h
  | cons e rest ih =>
    unfold mapLookup at h
    split at h
    · rename_i he
      have hev : e = (k, v) := by
        cases e
        simp only at he
        simp only [Option.some.injEq] at h
        rw [he, h]
      subst hev
      simp [List.filter_cons, hP, mapLookup]
    · rename_i he
      rw [List.filter_cons]
      split
      · simp [mapLookup, he, ih h]
      · exact ih h

theorem removeOld_removeOld (now : Int) (pointables : List (Int × MyPointable)) :
    removeOld now (removeOld now pointables) = removeOld now pointables := by
  unfold removeOld
  rw [List.filter_filter]
  simp

theorem listen_pointables_eq (now : Int) (h h1 : HandPinchCheck) (sig : Signal)
    (sent : Option Pinch) (hstep : ListenForPointables now h sig = some (h1, sent)) :
    h1.Pointables = removeOld now (updatedPointables now h sig) := by
  cases sig with
  | pointable p =>
    simp only [ListenForPointables, Option.some.injEq, Prod.mk.injEq] at hstep
    rw [← hstep.1]
    rfl
  | fingerDisappeared =>
    unfold ListenForPointables at hstep
    cases hc : checkPair (collectPair now h.Pointables) with
    | none => simp [hc] at hstep
    | some r =>
      simp only [hc, Option.some.injEq, Prod.mk.injEq] at hstep
      rw [← hstep.1]
      rfl

/-- C16: when a tracker has handled a signal at instant `now` and goes on, its finger map
holds exactly the entries that the map had on reaching `REMOVE_OLD` and that were updated
no more than 60 ms before `now`, each unchanged; an entry of the map before the signal
that is that recent and is not the finger of the signal is still there, unchanged; and
after a pointable of finger `p.Id` the map holds that finger, updated at `now`, its history
extended by the pointable. -/
theorem C16_eviction_invariant (now : Int) (h h1 : HandPinchCheck) (sig : Signal)
    (sent : Option Pinch) (hstep : ListenForPointables now h sig = some (h1, sent)) :
    (∀ e, e ∈ h1.Pointables ↔
      e ∈ updatedPointables now h sig ∧ now - e.2.lastUpdate ≤ STALE_WINDOW) ∧
    (∀ k m, mapLookup k h.Pointables = some m → now - m.lastUpdate ≤ STALE_WINDOW →
      (∀ p, sig = Signal.pointable p → k ≠ p.Id) → mapLookup k h1.Pointables = some m) ∧
    (∀ p, sig = Signal.pointable p →
      ∃ m, mapLookup p.Id h1.Pointables = some m ∧ m.lastUpdate = now ∧
        m.History = (match mapLookup p.Id h.Pointables with
          | some m0 => m0.History
          | none => NewCircBuf MAX_POINTABLES_PER_HISTORY).AddItem p) := by
  have heq := listen_pointables_eq now h h1 sig sent hstep
  refine ⟨?_, ?_, ?_⟩
  · intro e
    rw [heq]
    unfold removeOld
    rw [List.mem_filter]
    simp
  · intro k m hk hfresh hne
    rw [heq]
    unfold removeOld
    apply mapLookup_filter
    · cases sig with
      | pointable p =>
        simp only [updatedPointables]
        rw [mapLookup_mapInsert_ne _ _ _ _ (hne p rfl)]
        exact hk
      | fingerDisappeared => exact hk
    · simpa using hfresh
  · intro p hp
    subst hp
    rw [heq]
    have hlook : mapLookup p.Id (removeOld now (updatedPointables now h (Signal.pointable p)))
        = some { History :=
                   ((match mapLookup p.Id h.Pointables with
                     | some m => m
                     | none => { History := NewCircBuf MAX_POINTABLES_PER_HISTORY,
                                 lastUpdate := 0 } : MyPointable).History.AddItem p)
                 lastUpdate := now } := by
      unfold removeOld
      apply mapLookup_filter
      · exact mapLookup_mapInsert_self _ _ _
      · simp [STALE_WINDOW]
    refine ⟨_, hlook, rfl, ?_⟩
    cases mapLookup p.Id h.Pointables <;> rfl

/-- Witness of C16: at instant 0 a disappearance signal leaves finger 10, updated at 0, and
evicts finger 11, updated 70 ms earlier. -/
theorem C16_eviction_invariant_witness :
    (∀ e, e ∈ [((10 : Int), stillFinger 6 0)] ↔
      e ∈ updatedPointables 0 staleFingerTracker Signal.fingerDisappeared ∧
        0 - e.2.lastUpdate ≤ STALE_WINDOW) ∧
    (∀ k m, mapLookup k staleFingerTracker.Pointables = some m →
      0 - m.lastUpdate ≤ STALE_WINDOW →
      (∀ p, Signal.fingerDisappeared = Signal.pointable p → k ≠ p.Id) →
      mapLookup k [((10 : Int), stillFinger 6 0)] = some m) ∧
    (∀ p, Signal.fingerDisappeared = Signal.pointable p →
      ∃ m, mapLookup p.Id [((10 : Int), stillFinger 6 0)] = some m ∧ m.lastUpdate = 0 ∧
        m.History = (match mapLookup p.Id staleFingerTracker.Pointables with
          | some m0 => m0.History
          | none => NewCircBuf MAX_POINTABLES_PER_HISTORY).AddItem p) :=
  C16_eviction_invariant 0 staleFingerTracker
    { staleFingerTracker with Pointables := [(10, stillFinger 6 0)] }
    Signal.fingerDisappeared none (by decide!)

/-- C17: on a disappearance signal the candidates collected from the finger map are the
candidates collected from the map after an eviction pass at the same instant, and the
handler (select, decide, evict) gives the same state and the same pinch, or the same fatal
exit, as the order of the spec (evict, select, decide, evict). -/
theorem C17_eviction_order_irrelevant (now : Int) (h : HandPinchCheck) :
    collectPair now (removeOld now h.Pointables) = collectPair now h.Pointables ∧
    evictThenListen now h = ListenForPointables now h Signal.fingerDisappeared := by
  have hcol : ∀ m : List (Int × MyPointable),
      collectPair now (removeOld now m) = collectPair now m := by
    intro m
    unfold collectPair removeOld
    rw [List.filter_filter]
    congr 1
    apply List.filter_congr
    intro e _
    by_cases hc : isCandidate now e.2 = true
    · have hfresh : ¬ now - e.2.lastUpdate > STALE_WINDOW := by
        simp only [isCandidate, Bool.and_eq_true, decide_eq_true_eq] at hc
        have h1 := hc.1
        unfold RECENT_WINDOW at h1
        unfold STALE_WINDOW
        omega
      simp [hc, hfresh]
    · simp [hc]
  refine ⟨hcol h.Pointables, ?_⟩
  unfold evictThenListen ListenForPointables
  simp only [hcol, removeOld_removeOld]

/-! ## Short histories -/

theorem mem_loopOffsets (m i : Nat) : i ∈ loopOffsets m ↔ i < m ∧ i % 2 = 0 := by
  unfold loopOffsets
  simp [List.mem_filter]

theorem length_loopOffsets (m : Nat) : (loopOffsets m).length = (m + 1) / 2 := by
  induction m with
  | zero => rfl
  | succ n ih =>
    unfold loopOffsets at ih ⊢
    rw [List.range_succ, List.filter_append, List.length_append, ih]
    by_cases hn : n % 2 = 0
    · simp [List.filter_cons, hn]
      omega
    · simp [List.filter_cons, hn]
      omega

theorem sampledDistances_of_inRange (mp p : MyPointable) (offs : List Nat)
    (h : ∀ i ∈ offs, i < mp.History.items.length ∧ i < p.History.items.length) :
    ∃ ds, sampledDistances mp p offs = some ds ∧ ds.length = offs.length := by
  induction offs with
  | nil => exact ⟨[], rfl, rfl⟩
  | cons i rest ih =>
    obtain ⟨ds, hds, hlen⟩ := ih (fun j hj => h j (List.mem_cons_of_mem _ hj))
    have hi := h i (List.mem_cons_self _ _)
    obtain ⟨a, ha⟩ : ∃ a, mp.History.ReadFromStart i = some a :=
      ⟨_, List.get?_eq_get hi.1⟩
    obtain ⟨b, hb⟩ : ∃ b, p.History.ReadFromStart i = some b :=
      ⟨_, List.get?_eq_get hi.2⟩
    refine ⟨DistanceBetweenPointables a b :: ds, ?_, by simp [hlen]⟩
    simp [sampledDistances, ha, hb, hds]

theorem inRange_of_sampledDistances (mp p : MyPointable) (offs : List Nat) (ds : List ℚ)
    (h : sampledDistances mp p offs = some ds) :
    ds.length = offs.length ∧
    ∀ i ∈ offs, i < mp.History.items.length ∧ i < p.History.items.length := by
  induction offs generalizing ds with
  | nil =>
    simp only [sampledDistances, Option.some.injEq] at h
    subst h
    exact ⟨rfl, fun i hi => absurd hi (List.not_mem_nil i)⟩
  | cons i rest ih =>
    unfold sampledDistances at h
    cases ha : mp.History.ReadFromStart i with
    | none => simp [ha] at h
    | some a =>
      cases hb : p.History.ReadFromStart i with
      | none => simp [ha, hb] at h
      | some b =>
        cases hr : sampledDistances mp p rest with
        | none => simp [ha, hb, hr] at h
        | some ds1 =>
          simp only [ha, hb, hr, Option.some.injEq] at h
          subst h
          obtain ⟨hlen, hall⟩ := ih ds1 hr
          refine ⟨by simp [hlen], ?_⟩
          intro j hj
          rcases List.mem_cons.mp hj with hj | hj
          · subst hj
            have h1 : j < mp.History.items.length := by
              by_contra hc
              have : mp.History.ReadFromStart j = none :=
                List.get?_eq_none.mpr (Nat.le_of_not_lt hc)
              rw [this] at ha
              cases ha
            have h2 : j < p.History.items.length := by
              by_contra hc
              have : p.History.ReadFromStart j = none :=
                List.get?_eq_none.mpr (Nat.le_of_not_lt hc)
              rw [this] at hb
              cases hb
            exact ⟨h1, h2⟩
          · exact hall j hj

theorem countRegressions_le (d0 : ℚ) (ds : List ℚ) : countRegressions d0 ds ≤ ds.length := by
  induction ds generalizing d0 with
  | nil => exact Nat.le_refl 0
  | cons d rest ih =>
    have := ih d
    simp only [countRegressions, List.length_cons]
    split <;> omega

theorem countRegressions_zero_le (ds : List ℚ) : countRegressions 0 ds ≤ ds.length - 1 := by
  cases ds with
  | nil => exact Nat.le_refl 0
  | cons d rest =>
    have := countRegressions_le d rest
    simp only [countRegressions, ne_eq, not_true_eq_false, and_false, if_false, Nat.zero_add,
      List.length_cons, Nat.add_sub_cancel]
    exact this

theorem increasing_of_countRegressions (d0 : ℚ) (ds : List ℚ)
    (h : countRegressions d0 ds = ds.length) : List.Chain (fun d d' => d < d') d0 ds := by
  induction ds generalizing d0 with
  | nil => exact List.Chain.nil
  | cons d rest ih =>
    have hle := countRegressions_le d rest
    simp only [countRegressions, List.length_cons] at h
    split at h
    · rename_i hc
      exact List.Chain.cons hc.1 (ih d (by omega))
    · omega

theorem loopOffsets_fifteen : loopOffsets 15 = [0, 2, 4, 6, 8, 10, 12, 14] := by decide

theorem loopOffsets_sixteen : loopOffsets 16 = [0, 2, 4, 6, 8, 10, 12, 14] := by decide

/-- C18: for two well-formed histories of capacity 15, if one of them received at most 14
samples the convergence test returns true, whatever the positions; and if the test returns
false then both received at least 15 samples and the squared distances at the offsets
0, 2, ..., 14 increase strictly at every one of the 7 steps from an offset to the next. -/
theorem C18_lenient_on_short_histories (mp p : MyPointable)
    (hA : mp.History.WF) (hB : p.History.WF) :
    (min mp.History.Added p.History.Added ≤ 14 → CalculateConvergence mp p = some true) ∧
    (CalculateConvergence mp p = some false →
      15 ≤ mp.History.Added ∧ 15 ≤ p.History.Added ∧
      ∃ ds, sampledDistances mp p [0, 2, 4, 6, 8, 10, 12, 14] = some ds ∧ ds.length = 8 ∧
        List.Chain' (fun d d' => d < d') ds) := by
  have hlenA : mp.History.items.length = min mp.History.Added 15 := by
    have h1 := hA.2
    rw [hA.1] at h1
    exact h1
  have hlenB : p.History.items.length = min p.History.Added 15 := by
    have h1 := hB.2
    rw [hB.1] at h1
    exact h1
  constructor
  · intro hshort
    have hin : ∀ i ∈ loopOffsets (maxCount mp p),
        i < mp.History.items.length ∧ i < p.History.items.length := by
      intro i hi
      rw [mem_loopOffsets, maxCount_eq] at hi
      omega
    obtain ⟨ds, hds, hlen⟩ := sampledDistances_of_inRange mp p _ hin
    rw [CalculateConvergence_eq, hds]
    have hcount := countRegressions_zero_le ds
    rw [hlen, length_loopOffsets, maxCount_eq] at hcount
    have hok : countRegressions 0 ds ≤ CONVERGENCE_THRESHOLD := by
      unfold CONVERGENCE_THRESHOLD
      omega
    simp [hok]
  · intro hfalse
    rw [CalculateConvergence_eq] at hfalse
    cases hds : sampledDistances mp p (loopOffsets (maxCount mp p)) with
    | none => simp [hds] at hfalse
    | some ds =>
      simp only [hds, Option.map_some', Option.some.injEq, decide_eq_false_iff_not] at hfalse
      unfold CONVERGENCE_THRESHOLD at hfalse
      obtain ⟨hlen, hin⟩ := inRange_of_sampledDistances mp p _ ds hds
      have hcount := countRegressions_zero_le ds
      rw [length_loopOffsets, maxCount_eq] at hlen
      have hbig : 15 ≤ min mp.History.Added p.History.Added := by omega
      have hsmall : min mp.History.Added p.History.Added ≤ 16 := by
        by_contra hc
        have h16 : 16 ∈ loopOffsets (maxCount mp p) := by
          rw [mem_loopOffsets, maxCount_eq]
          omega
        have := (hin 16 h16).1
        omega
      have hoffs : loopOffsets (maxCount mp p) = [0, 2, 4, 6, 8, 10, 12, 14] := by
        rw [maxCount_eq]
        have h2 : min mp.History.Added p.History.Added = 15 ∨
            min mp.History.Added p.History.Added = 16 := by omega
        rcases h2 with h2 | h2
        · rw [h2, loopOffsets_fifteen]
        · rw [h2, loopOffsets_sixteen]
      have hlen8 : ds.length = 8 := by omega
      refine ⟨by omega, by omega, ds, hoffs ▸ hds, hlen8, ?_⟩
      cases ds with
      | nil => simp at hlen8
      | cons d rest =>
        have hrest : rest.length = 7 := by simpa using hlen8
        simp only [countRegressions, ne_eq, not_true_eq_false, and_false, if_false,
          Nat.zero_add] at hfalse
        have hle := countRegressions_le d rest
        exact increasing_of_countRegressions d rest (by omega)

/-- Witness of C18: with 8 samples each the test returns true; with 15 samples each and a
finger moving away it returns false, and the 8 sampled distances increase. -/
theorem C18_lenient_on_short_histories_witness :
    CalculateConvergence (stillFinger 8 0) (approachingFinger 8 0) = some true ∧
    (15 ≤ (stillFinger 15 0).History.Added ∧ 15 ≤ (retreatingFinger 15 0).History.Added ∧
      ∃ ds, sampledDistances (stillFinger 15 0) (retreatingFinger 15 0)
          [0, 2, 4, 6, 8, 10, 12, 14] = some ds ∧ ds.length = 8 ∧
        List.Chain' (fun d d' => d < d') ds) :=
  ⟨(C18_lenient_on_short_histories (stillFinger 8 0) (approachingFinger 8 0)
      (by unfold Circ.WF; decide) (by unfold Circ.WF; decide)).1 (by decide),
   (C18_lenient_on_short_histories (stillFinger 15 0) (retreatingFinger 15 0)
      (by unfold Circ.WF; decide) (by unfold Circ.WF; decide)).2 (by decide!)⟩

/-! ## The order of the pair -/

theorem maxCount_comm (a b : MyPointable) : maxCount a b = maxCount b a := by
  rw [maxCount_eq, maxCount_eq, Nat.min_comm]

theorem sampledDistances_comm (a b : MyPointable) (offs : List Nat) :
    sampledDistances a b offs = sampledDistances b a offs := by
  induction offs with
  | nil => rfl
  | cons i rest ih =>
    unfold sampledDistances
    rw [ih]
    cases a.History.ReadFromStart i with
    | none => cases b.History.ReadFromStart i <;> rfl
    | some x =>
      cases b.History.ReadFromStart i with
      | none => rfl
      | some y =>
        simp only
        rw [DistanceBetweenPointables_comm x y]

theorem CalculateConvergence_comm (a b : MyPointable) :
    CalculateConvergence a b = CalculateConvergence b a := by
  rw [CalculateConvergence_eq, CalculateConvergence_eq, maxCount_comm a b,
    sampledDistances_comm a b]

theorem checkPair_swap (a b : MyPointable) :
    (checkPair [a, b]).map Option.isSome = (checkPair [b, a]).map Option.isSome := by
  cases hA : a.History.ReadFromEnd 0 with
  | none => cases hB : b.History.ReadFromEnd 0 <;> simp [checkPair, hA, hB]
  | some goA =>
    cases hB : b.History.ReadFromEnd 0 with
    | none => simp [checkPair, hA, hB]
    | some goB =>
      simp only [checkPair, hA, hB]
      rw [DistanceBetweenPointables_comm goB goA, CalculateConvergence_comm b a]
      split
      · cases CalculateConvergence a b with
        | none => rfl
        | some conv => cases conv <;> rfl
      · rfl

theorem checkPair_cons_perm (x : MyPointable) (t1 t2 : List MyPointable)
    (hp : t1.Perm t2) :
    (checkPair (x :: t1)).map Option.isSome = (checkPair (x :: t2)).map Option.isSome := by
  by_cases hlen : t1.length = 1
  · match t1, hlen, hp with
    | [y], _, hp1 =>
      have ht2 : t2 = [y] := List.perm_singleton.mp hp1.symm
      rw [ht2]
  · have hlen2 : ¬ t2.length = 1 := fun hc => hlen (hp.length_eq.trans hc)
    rw [checkPair_of_length_ne_two (x :: t1) (by simpa using hlen),
      checkPair_of_length_ne_two (x :: t2) (by simpa using hlen2)]

theorem checkPair_perm (l1 l2 : List MyPointable) (hperm : l1.Perm l2) :
    (checkPair l1).map Option.isSome = (checkPair l2).map Option.isSome := by
  induction hperm with
  | nil => rfl
  | cons x hp _ => exact checkPair_cons_perm x _ _ hp
  | swap x y l =>
    cases l with
    | nil => exact checkPair_swap y x
    | cons z rest =>
      rw [checkPair_of_length_ne_two (y :: x :: z :: rest) (by simp),
        checkPair_of_length_ne_two (x :: y :: z :: rest) (by simp)]
  | trans _ _ ih1 ih2 => exact ih1.trans ih2

/-- C19: the convergence test gives the same answer, or the same fatal exit, in both
orders of the pair, and the squared distance of two samples is the same in both orders;
so for two finger maps that hold the same entries in different orders, a disappearance
signal sends a pinch from the one exactly when it sends a pinch from the other. -/
theorem C19_order_independent (a b : MyPointable) (goA goB : Pointable) (now : Int)
    (h : HandPinchCheck) (pointables : List (Int × MyPointable))
    (hperm : h.Pointables.Perm pointables) :
    CalculateConvergence a b = CalculateConvergence b a ∧
    DistanceBetweenPointables goA goB = DistanceBetweenPointables goB goA ∧
    (checkPair [a, b]).map Option.isSome = (checkPair [b, a]).map Option.isSome ∧
    (ListenForPointables now h Signal.fingerDisappeared).map (fun r => r.2.isSome)
      = (ListenForPointables now { h with Pointables := pointables }
          Signal.fingerDisappeared).map (fun r => r.2.isSome) := by
  refine ⟨CalculateConvergence_comm a b, DistanceBetweenPointables_comm goA goB,
    checkPair_swap a b, ?_⟩
  have hpair : (collectPair now h.Pointables).Perm (collectPair now pointables) := by
    unfold collectPair
    exact (hperm.filter _).map _
  have hcheck := checkPair_perm _ _ hpair
  unfold ListenForPointables
  simp only
  cases h1 : checkPair (collectPair now h.Pointables) with
  | none =>
    rw [h1] at hcheck
    cases h2 : checkPair (collectPair now pointables) with
    | none => rfl
    | some s2 =>
      rw [h2] at hcheck
      cases hcheck
  | some s1 =>
    rw [h1] at hcheck
    cases h2 : checkPair (collectPair now pointables) with
    | none =>
      rw [h2] at hcheck
      cases hcheck
    | some s2 =>
      rw [h2] at hcheck
      simp only [Option.map_some', Option.some.injEq] at hcheck ⊢
      exact hcheck

/-- Witness of C19: the tracker of two close fingers sends a pinch whether finger 10 or
finger 11 comes first in its map. -/
theorem C19_order_independent_witness :
    (ListenForPointables 0 (twoFingerTracker (43, 7, 1)) Signal.fingerDisappeared).map
        (fun r => r.2.isSome)
      = (ListenForPointables 0
          { twoFingerTracker (43, 7, 1) with
            Pointables := [(11, restingFinger (43, 7, 1) 0), (10, stillFinger 6 0)] }
          Signal.fingerDisappeared).map (fun r => r.2.isSome) :=
  (C19_order_independent (stillFinger 6 0) (restingFinger (43, 7, 1) 0)
    { Id := 10, HandId := 1, TipPosition := (0, 0, 0) }
    { Id := 11, HandId := 1, TipPosition := (43, 7, 1) } 0 (twoFingerTracker (43, 7, 1))
    [(11, restingFinger (43, 7, 1) 0), (10, stillFinger 6 0)]
    (List.Perm.swap _ _ _)).2.2.2

/-! ## The registry of trackers -/

theorem routePointable_checks (st : RouterState) (p : Pointable) :
    (routePointable st p).1.PinchChecks =
      if p.HandId = -1 then st.PinchChecks
      else
        match mapLookup p.HandId st.PinchChecks with
        | some _ => st.PinchChecks
        | none => mapInsert p.HandId p.HandId st.PinchChecks := by
  unfold routePointable
  simp only
  split
  · rfl
  · split <;> rfl

theorem routePointable_actions (st : RouterState) (p : Pointable) :
    (routePointable st p).2 =
      if p.HandId = -1 then []
      else
        match mapLookup p.HandId st.PinchChecks with
        | some _ => [Action.sendPointable p.HandId p]
        | none =>
          [Action.spawn p.HandId { HandId := p.HandId, LastUpdate := [], Pointables := [] },
            Action.sendPointable p.HandId p] := by
  unfold routePointable
  simp only
  split
  · rfl
  · split <;> rfl

theorem registered_routePointable (st : RouterState) (p : Pointable) (h : Int) :
    (routePointable st p).1.registered h =
      (st.registered h || decide (p.HandId = h ∧ h ≠ -1)) := by
  unfold RouterState.registered
  rw [routePointable_checks]
  by_cases hp : p.HandId = -1
  · have hne : ¬ (p.HandId = h ∧ h ≠ -1) := fun hc => hc.2 (hc.1 ▸ hp)
    rw [if_pos hp, decide_eq_false hne, Bool.or_false]
  · rw [if_neg hp]
    cases hl : mapLookup p.HandId st.PinchChecks with
    | some v =>
      simp only
      by_cases hh : p.HandId = h
      · subst hh
        simp [hl]
      · simp [hh]
    | none =>
      simp only
      rw [mapLookup_mapInsert]
      by_cases hh : h = p.HandId
      · subst hh
        simp [hp]
      · have hh2 : ¬ p.HandId = h := fun hc => hh hc.symm
        simp [hh, hh2]

theorem spawnCount_append (h : Int) (xs ys : List Action) :
    spawnCount h (xs ++ ys) = spawnCount h xs + spawnCount h ys := by
  unfold spawnCount
  rw [List.filter_append, List.length_append]

theorem spawnCount_routePointable (st : RouterState) (p : Pointable) (h : Int) :
    spawnCount h (routePointable st p).2 + (st.registered h).toNat
      = ((routePointable st p).1.registered h).toNat := by
  rw [registered_routePointable, routePointable_actions]
  unfold RouterState.registered
  by_cases hp : p.HandId = -1
  · have hne : ¬ (p.HandId = h ∧ h ≠ -1) := fun hc => hc.2 (hc.1 ▸ hp)
    rw [if_pos hp, decide_eq_false hne, Bool.or_false]
    simp [spawnCount]
  · rw [if_neg hp]
    cases hl : mapLookup p.HandId st.PinchChecks with
    | some v =>
      by_cases hh : p.HandId = h
      · subst hh
        simp [hl, spawnCount]
      · simp [hh, spawnCount]
    | none =>
      by_cases hh : p.HandId = h
      · subst hh
        simp [hl, hp, spawnCount]
      · simp [hh, spawnCount]

theorem persist_routePointable (st : RouterState) (p : Pointable) (h v : Int)
    (hv : mapLookup h st.PinchChecks = some v) :
    mapLookup h (routePointable st p).1.PinchChecks = some v := by
  rw [routePointable_checks]
  split
  · exact hv
  · split
    · exact hv
    · rename_i hnone
      have hne : h ≠ p.HandId := by
        intro hc
        rw [hc, hnone] at hv
        cases hv
      rw [mapLookup_mapInsert_ne _ _ _ _ hne]
      exact hv

theorem registered_routePointables (st : RouterState) (frame : Frame) (h : Int) :
    (routePointables st frame).1.registered h =
      (st.registered h || decide (h ≠ -1 ∧ ∃ p ∈ frame, p.HandId = h)) := by
  induction frame generalizing st with
  | nil => simp [routePointables]
  | cons p rest ih =>
    simp only [routePointables]
    rw [ih, registered_routePointable]
    by_cases hp : p.HandId = h
    · by_cases hh : h = -1 <;> simp [hp, hh]
    · simp [hp]

theorem spawnCount_routePointables (st : RouterState) (frame : Frame) (h : Int) :
    spawnCount h (routePointables st frame).2 + (st.registered h).toNat
      = ((routePointables st frame).1.registered h).toNat := by
  induction frame generalizing st with
  | nil => simp [routePointables, spawnCount]
  | cons p rest ih =>
    simp only [routePointables, spawnCount_append]
    have h1 := spawnCount_routePointable st p h
    have h2 := ih (routePointable st p).1
    omega

theorem persist_routePointables (st : RouterState) (frame : Frame) (h v : Int)
    (hv : mapLookup h st.PinchChecks = some v) :
    mapLookup h (routePointables st frame).1.PinchChecks = some v := by
  induction frame generalizing st with
  | nil => exact hv
  | cons p rest ih =>
    simp only [routePointables]
    exact ih _ (persist_routePointable st p h v hv)

theorem spawnCount_notifyDisappeared (h : Int) (past curr : List (Int × PPH)) :
    spawnCount h (notifyDisappeared past curr) = 0 := by
  unfold spawnCount
  rw [List.length_eq_zero, List.filter_eq_nil_iff]
  intro a ha
  obtain ⟨e, _, hea⟩ := mem_notifyDisappeared past curr a ha
  rw [hea]
  simp

theorem registered_routeFrames (st : RouterState) (frames : List Frame) (h : Int) :
    (routeFrames st frames).1.registered h =
      (st.registered h || decide (h ≠ -1 ∧ ∃ p ∈ frames.flatten, p.HandId = h)) := by
  induction frames generalizing st with
  | nil => simp [routeFrames]
  | cons f rest ih =>
    simp only [routeFrames]
    rw [ih]
    have hf : (routeFrame st f).1.registered h = (routePointables st f).1.registered h := rfl
    rw [hf, registered_routePointables]
    by_cases hh : h = -1
    · simp [hh]
    · by_cases h1 : ∃ p ∈ f, p.HandId = h
      · obtain ⟨p, hp, hph⟩ := h1
        have h2 : ∃ q, (q ∈ f ∨ ∃ l ∈ rest, q ∈ l) ∧ q.HandId = h := ⟨p, Or.inl hp, hph⟩
        have h3 : ∃ q ∈ f, q.HandId = h := ⟨p, hp, hph⟩
        simp [hh, h2, h3]
      · by_cases h4 : ∃ q, (∃ l ∈ rest, q ∈ l) ∧ q.HandId = h
        · obtain ⟨q, hq, hqh⟩ := h4
          have h2 : ∃ q, (q ∈ f ∨ ∃ l ∈ rest, q ∈ l) ∧ q.HandId = h := ⟨q, Or.inr hq, hqh⟩
          have h5 : ∃ q, (∃ l ∈ rest, q ∈ l) ∧ q.HandId = h := ⟨q, hq, hqh⟩
          simp [hh, h2, h5]
        · have h2 : ¬ ∃ q, (q ∈ f ∨ ∃ l ∈ rest, q ∈ l) ∧ q.HandId = h := by
            rintro ⟨q, hq | hq, hqh⟩
            · exact h1 ⟨q, hq, hqh⟩
            · exact h4 ⟨q, hq, hqh⟩
          simp [hh, h1, h2, h4]

theorem spawnCount_routeFrames (st : RouterState) (frames : List Frame) (h : Int) :
    spawnCount h (routeFrames st frames).2.flatten + (st.registered h).toNat
      = ((routeFrames st frames).1.registered h).toNat := by
  induction frames generalizing st with
  | nil => simp [routeFrames, spawnCount]
  | cons f rest ih =>
    simp only [routeFrames, List.flatten_cons, spawnCount_append]
    have h2 := ih (routeFrame st f).1
    have hf : (routeFrame st f).1.registered h = (routePointables st f).1.registered h := rfl
    have h1 := spawnCount_routePointables st f h
    have h3 : spawnCount h (routeFrame st f).2 = spawnCount h (routePointables st f).2 := by
      simp only [routeFrame, spawnCount_append, spawnCount_notifyDisappeared, Nat.add_zero]
    have hf1 := congrArg Bool.toNat hf
    omega

theorem persist_routeFrames (st : RouterState) (frames : List Frame) (h v : Int)
    (hv : mapLookup h st.PinchChecks = some v) :
    mapLookup h (routeFrames st frames).1.PinchChecks = some v := by
  induction frames generalizing st with
  | nil => exact hv
  | cons f rest ih =>
    simp only [routeFrames]
    exact ih _ (persist_routePointables st f h v hv)

theorem routeFrames_append (st : RouterState) (xs ys : List Frame) :
    (routeFrames st (xs ++ ys)).1 = (routeFrames (routeFrames st xs).1 ys).1 := by
  induction xs generalizing st with
  | nil => rfl
  | cons f rest ih =>
    simp only [List.cons_append, routeFrames]
    exact ih _

theorem traceValid_congr (acts : List Action) (reg reg1 : List Int)
    (hiff : ∀ k, k ∈ reg ↔ k ∈ reg1) (hv : traceValid reg acts) : traceValid reg1 acts := by
  induction acts generalizing reg reg1 with
  | nil => exact trivial
  | cons a rest ih =>
    cases a with
    | spawn h hpc =>
      simp only [traceValid] at hv ⊢
      refine ⟨fun hc => hv.1 ((hiff h).mpr hc), hv.2.1, ?_⟩
      apply ih (h :: reg) (h :: reg1) _ hv.2.2
      intro k
      simp only [List.mem_cons, hiff k]
    | sendPointable h p =>
      simp only [traceValid] at hv ⊢
      exact ⟨(hiff h).mp hv.1, ih reg reg1 hiff hv.2⟩
    | sendDisappeared h =>
      simp only [traceValid] at hv ⊢
      exact ⟨(hiff h).mp hv.1, ih reg reg1 hiff hv.2⟩

theorem valid_routePointable (st : RouterState) (p : Pointable) (reg : List Int)
    (hreg : ∀ k, k ∈ reg ↔ st.registered k = true) :
    ∃ reg1, (∀ k, k ∈ reg1 ↔ (routePointable st p).1.registered k = true) ∧
      ∀ tail, traceValid reg1 tail → traceValid reg ((routePointable st p).2 ++ tail) := by
  by_cases hp : p.HandId = -1
  · rw [routePointable_unknown st p hp]
    exact ⟨reg, hreg, fun tail ht => ht⟩
  · cases hl : mapLookup p.HandId st.PinchChecks with
    | some v =>
      have hin : p.HandId ∈ reg := by
        rw [hreg]
        simp [RouterState.registered, hl]
      refine ⟨reg, ?_, ?_⟩
      · intro k
        rw [hreg, registered_routePointable]
        by_cases hk : p.HandId = k
        · subst hk
          simp [RouterState.registered, hl]
        · simp [hk]
      · intro tail ht
        rw [routePointable_actions, if_neg hp, hl]
        simp only [List.cons_append, List.nil_append, traceValid]
        exact ⟨hin, ht⟩
    | none =>
      have hnot : p.HandId ∉ reg := by
        rw [hreg]
        simp [RouterState.registered, hl]
      refine ⟨p.HandId :: reg, ?_, ?_⟩
      · intro k
        rw [List.mem_cons, hreg, registered_routePointable]
        by_cases hk : p.HandId = k
        · subst hk
          simp [hp]
        · have hk2 : ¬ k = p.HandId := fun hc => hk hc.symm
          simp [hk, hk2]
      · intro tail ht
        rw [routePointable_actions, if_neg hp, hl]
        simp only [List.cons_append, List.nil_append, traceValid]
        exact ⟨hnot, ⟨p, tail, rfl, rfl⟩, List.mem_cons_self _ _, ht⟩

theorem counted_routePointable (st : RouterState) (p : Pointable)
    (hinv : st.CountedRegistered) : (routePointable st p).1.CountedRegistered := by
  by_cases hp : p.HandId = -1
  · rw [routePointable_unknown st p hp]
    exact hinv
  · constructor
    · intro k hk
      rw [registered_routePointable]
      have hkeys : k = p.HandId ∨ k ∈ st.currPerHand.map Prod.fst := by
        rw [routePointable_curr st p hp] at hk
        split at hk
        · exact (mem_keys_mapInsert _ _ _ _).mp hk
        · exact (mem_keys_mapInsert _ _ _ _).mp hk
      rcases hkeys with hk1 | hk1
      · subst hk1
        simp [hp]
      · simp [hinv.1 k hk1]
    · intro k hk
      rw [routePointable_past] at hk
      rw [registered_routePointable]
      simp [hinv.2 k hk]

theorem valid_routePointables (st : RouterState) (frame : Frame) (reg : List Int)
    (hreg : ∀ k, k ∈ reg ↔ st.registered k = true) (hinv : st.CountedRegistered) :
    ∃ reg1, (∀ k, k ∈ reg1 ↔ (routePointables st frame).1.registered k = true) ∧
      (routePointables st frame).1.CountedRegistered ∧
      ∀ tail, traceValid reg1 tail → traceValid reg ((routePointables st frame).2 ++ tail) := by
  induction frame generalizing st reg with
  | nil => exact ⟨reg, hreg, hinv, fun tail ht => ht⟩
  | cons p rest ih =>
    obtain ⟨reg1, hreg1, hcont1⟩ := valid_routePointable st p reg hreg
    obtain ⟨reg2, hreg2, hinv2, hcont2⟩ :=
      ih (routePointable st p).1 reg1 hreg1 (counted_routePointable st p hinv)
    refine ⟨reg2, hreg2, hinv2, ?_⟩
    intro tail ht
    simp only [routePointables, List.append_assoc]
    exact hcont1 _ (hcont2 tail ht)

theorem valid_notifyDisappeared (past curr : List (Int × PPH)) (reg : List Int)
    (hpast : ∀ k ∈ past.map Prod.fst, k ∈ reg) (tail : List Action)
    (ht : traceValid reg tail) : traceValid reg (notifyDisappeared past curr ++ tail) := by
  induction past with
  | nil => exact ht
  | cons e rest ih =>
    have hrest := ih (fun k hk => hpast k (by simp only [List.map_cons, List.mem_cons]; exact Or.inr hk))
    have he : e.1 ∈ reg := hpast e.1 (by simp)
    unfold notifyDisappeared at hrest ⊢
    rw [List.filterMap_cons]
    split
    · exact hrest
    · rename_i a ha
      have ha1 : a = Action.sendDisappeared e.1 := by
        split at ha
        · split at ha
          · exact (Option.some.inj ha).symm
          · cases ha
        · cases ha
      rw [ha1]
      simp only [List.cons_append, traceValid]
      exact ⟨he, hrest⟩

theorem valid_routeFrames (st : RouterState) (frames : List Frame) (reg : List Int)
    (hreg : ∀ k, k ∈ reg ↔ st.registered k = true) (hinv : st.CountedRegistered) :
    traceValid reg (routeFrames st frames).2.flatten := by
  induction frames generalizing st reg with
  | nil => exact trivial
  | cons f rest ih =>
    obtain ⟨reg1, hreg1, hinv1, hcont⟩ := valid_routePointables st f reg hreg hinv
    have hinv2 : (routeFrame st f).1.CountedRegistered :=
      ⟨fun k hk => absurd hk (List.not_mem_nil k), hinv1.1⟩
    have hreg2 : ∀ k, k ∈ reg1 ↔ (routeFrame st f).1.registered k = true := hreg1
    have htail := ih (routeFrame st f).1 reg1 hreg2 hinv2
    simp only [routeFrames, List.flatten_cons, routeFrame, List.append_assoc]
    apply hcont
    apply valid_notifyDisappeared
    · intro k hk
      rw [hreg1]
      rw [routePointables_past] at hk
      have := hinv.2 k hk
      rw [registered_routePointables, this]
      rfl
    · exact htail

/-- C20: after the router has processed the frames of any stream, a tracker is registered
under hand id `h` exactly when `h` is not -1 and some pointable of the stream carries it;
one tracker was started under such an `h` and none under any other; a registration is still
there, unchanged, after any further frames; and in the trace a tracker is started only
under a hand id that has none, right before the first pointable sent to it, while every
pointable and every notification goes to a hand id that has a tracker. -/
theorem C20_tracker_registry (frames more : List Frame) (h : Int) :
    ((RouteHand frames).1.registered h = true ↔
      h ≠ -1 ∧ ∃ p ∈ frames.flatten, p.HandId = h) ∧
    ((h ≠ -1 ∧ ∃ p ∈ frames.flatten, p.HandId = h) →
      spawnCount h (RouteHand frames).2.flatten = 1) ∧
    (¬ (h ≠ -1 ∧ ∃ p ∈ frames.flatten, p.HandId = h) →
      spawnCount h (RouteHand frames).2.flatten = 0) ∧
    (∀ v, mapLookup h (RouteHand frames).1.PinchChecks = some v →
      mapLookup h (RouteHand (frames ++ more)).1.PinchChecks = some v) ∧
    traceValid [] (RouteHand frames).2.flatten := by
  have hinit : RouterState.init.registered h = false := rfl
  have hreg : (RouteHand frames).1.registered h
      = decide (h ≠ -1 ∧ ∃ p ∈ frames.flatten, p.HandId = h) := by
    unfold RouteHand
    rw [registered_routeFrames, hinit, Bool.false_or]
  have hcount := spawnCount_routeFrames RouterState.init frames h
  rw [hinit] at hcount
  have hcount1 : spawnCount h (RouteHand frames).2.flatten
      = ((RouteHand frames).1.registered h).toNat := by
    unfold RouteHand
    simpa using hcount
  refine ⟨?_, ?_, ?_, ?_, ?_⟩
  · rw [hreg, decide_eq_true_iff]
  · intro hc
    rw [hcount1, hreg, decide_eq_true hc]
    rfl
  · intro hc
    rw [hcount1, hreg, decide_eq_false hc]
    rfl
  · intro v hv
    unfold RouteHand at hv ⊢
    rw [routeFrames_append]
    exact persist_routeFrames _ more h v hv
  · apply valid_routeFrames
    · intro k
      simp [RouterState.registered, RouterState.init, mapLookup]
    · exact ⟨fun k hk => absurd hk (List.not_mem_nil k),
        fun k hk => absurd hk (List.not_mem_nil k)⟩

/-! ## The midpoint in float64 -/

theorem round64_neg (q : ℚ) : round64 (-q) = -round64 q := by
  by_cases hq : q = 0
  · simp [round64, hq]
  · have hq1 : ¬ -q = 0 := by simpa using hq
    by_cases hneg : q < 0
    · have h2 : ¬ -q < 0 := by
        intro hc
        linarith
      simp only [round64, if_neg hq, if_neg hq1, abs_neg, if_pos hneg, if_neg h2]
      ring
    · have hpos : 0 < q := lt_of_le_of_ne (not_lt.mp hneg) (Ne.symm hq)
      have h2 : -q < 0 := by linarith
      simp only [round64, if_neg hq, if_neg hq1, abs_neg, if_neg hneg, if_pos h2]
      ring

theorem round64_examples :
    round64 (1 / 4) = 1 / 4 ∧
    round64 (1 / 3) = 6004799503160661 / 18014398509481984 ∧
    round64 (-1 / 3) = -6004799503160661 / 18014398509481984 ∧
    round64 9007199254740993 = 9007199254740992 ∧
    round64 9007199254740995 = 9007199254740996 ∧
    round64 (1 / 10) = 3602879701896397 / 36028797018963968 ∧
    round64 (7 / 10) = 3152519739159347 / 4503599627370496 := by
  refine ⟨by decide!, by decide!, by decide!, by decide!, by decide!, by decide!, by decide!⟩

theorem ExactHalfway_symm (a b : ℚ) (h : ExactHalfway a b) : ExactHalfway b a := by
  obtain ⟨h1, h2, h3⟩ := h
  refine ⟨?_, ?_, ?_⟩
  · have e : a - b = -(b - a) := by ring
    rw [e, round64_neg, h1]
  · have e : (1 / 2 : ℚ) * (a - b) = -((1 / 2) * (b - a)) := by ring
    rw [e, round64_neg, h2]
  · have e : (b + a) / 2 = (a + b) / 2 := by ring
    rw [e, h3]

theorem Halfway64_of_exact (a b : ℚ) (h : ExactHalfway a b) : Halfway64 a b = (a + b) / 2 := by
  obtain ⟨h1, h2, h3⟩ := h
  have e : a + (1 / 2) * (b - a) = (a + b) / 2 := by ring
  unfold Halfway64
  rw [h1, h2, e, h3]

theorem Halfway64_comm_of_exact (a b : ℚ) (h : ExactHalfway a b) :
    Halfway64 a b = Halfway64 b a := by
  rw [Halfway64_of_exact a b h, Halfway64_of_exact b a (ExactHalfway_symm a b h)]
  ring

/-- C12, as the code has it: for `float64` coordinates `a` and `b` such that none of the
three operations of `a + 0.5 * (b - a)` rounds, `Halfway` is `(a + b) / 2` (the value of the
exact formula), as far from `a` as from `b`, and the same in both orders; and the pinch set
from two pointables has the same X, Y and Z in both orders when this holds on each axis. -/
theorem C12_midpoint_without_rounding (a b : ℚ) (p1 p2 : Pointable)
    (h : ExactHalfway a b)
    (hx : ExactHalfway p1.TipPosition.1 p2.TipPosition.1)
    (hy : ExactHalfway p1.TipPosition.2.1 p2.TipPosition.2.1)
    (hz : ExactHalfway p1.TipPosition.2.2 p2.TipPosition.2.2) :
    Halfway64 a b = (a + b) / 2 ∧
    Halfway64 a b = Halfway a b ∧
    Halfway64 a b - a = b - Halfway64 a b ∧
    Halfway64 a b = Halfway64 b a ∧
    (SetFrom2Pointables64 p1 p2).X = (SetFrom2Pointables64 p2 p1).X ∧
    (SetFrom2Pointables64 p1 p2).Y = (SetFrom2Pointables64 p2 p1).Y ∧
    (SetFrom2Pointables64 p1 p2).Z = (SetFrom2Pointables64 p2 p1).Z := by
  refine ⟨Halfway64_of_exact a b h, ?_, ?_, Halfway64_comm_of_exact a b h,
    Halfway64_comm_of_exact _ _ hx, Halfway64_comm_of_exact _ _ hy,
    Halfway64_comm_of_exact _ _ hz⟩
  · rw [Halfway64_of_exact a b h, Halfway_eq]
  · rw [Halfway64_of_exact a b h]
    ring

/-- Witness of C12: between 1/4 and 3/4, and for the pointables at (1/4, 0, 1) and at
(3/4, 2, 1), no operation rounds and the midpoint is 1/2 in both orders. -/
theorem C12_midpoint_without_rounding_witness :
    Halfway64 (1 / 4) (3 / 4) = ((1 / 4 : ℚ) + 3 / 4) / 2 ∧
    Halfway64 (1 / 4) (3 / 4) = Halfway (1 / 4) (3 / 4) ∧
    Halfway64 (1 / 4) (3 / 4) - 1 / 4 = 3 / 4 - Halfway64 (1 / 4) (3 / 4) ∧
    Halfway64 (1 / 4) (3 / 4) = Halfway64 (3 / 4) (1 / 4) ∧
    (SetFrom2Pointables64 { Id := 10, HandId := 1, TipPosition := (1 / 4, 0, 1) }
        { Id := 11, HandId := 1, TipPosition := (3 / 4, 2, 1) }).X
      = (SetFrom2Pointables64 { Id := 11, HandId := 1, TipPosition := (3 / 4, 2, 1) }
        { Id := 10, HandId := 1, TipPosition := (1 / 4, 0, 1) }).X ∧
    (SetFrom2Pointables64 { Id := 10, HandId := 1, TipPosition := (1 / 4, 0, 1) }
        { Id := 11, HandId := 1, TipPosition := (3 / 4, 2, 1) }).Y
      = (SetFrom2Pointables64 { Id := 11, HandId := 1, TipPosition := (3 / 4, 2, 1) }
        { Id := 10, HandId := 1, TipPosition := (1 / 4, 0, 1) }).Y ∧
    (SetFrom2Pointables64 { Id := 10, HandId := 1, TipPosition := (1 / 4, 0, 1) }
        { Id := 11, HandId := 1, TipPosition := (3 / 4, 2, 1) }).Z
      = (SetFrom2Pointables64 { Id := 11, HandId := 1, TipPosition := (3 / 4, 2, 1) }
        { Id := 10, HandId := 1, TipPosition := (1 / 4, 0, 1) }).Z :=
  C12_midpoint_without_rounding (1 / 4) (3 / 4)
    { Id := 10, HandId := 1, TipPosition := (1 / 4, 0, 1) }
    { Id := 11, HandId := 1, TipPosition := (3 / 4, 2, 1) }
    (by unfold ExactHalfway; decide!) (by unfold ExactHalfway; decide!)
    (by unfold ExactHalfway; decide!) (by unfold ExactHalfway; decide!)

/-- Counterexample to C12 as stated: `0.1` and `0.7` are `float64` values, yet `Halfway`
gives 0.4 for (0.1, 0.7) and 0.39999999999999997 for (0.7, 0.1), and 0.4 is neither the
exact `(a + b) / 2` nor the `float64` `(a + b) / 2`; and the pinches set from the
pointables at (1, 0, 0) and at (3 / 2 ^ 54, 0, 0) differ in X between the two orders. -/
theorem C12_rounding_breaks_the_midpoint :
    round64 tenth64 = tenth64 ∧ round64 sevenTenths64 = sevenTenths64 ∧
    Halfway64 tenth64 sevenTenths64 = 3602879701896397 / 9007199254740992 ∧
    Halfway64 sevenTenths64 tenth64 = 7205759403792793 / 18014398509481984 ∧
    Halfway64 tenth64 sevenTenths64 ≠ Halfway64 sevenTenths64 tenth64 ∧
    Halfway64 tenth64 sevenTenths64 ≠ (tenth64 + sevenTenths64) / 2 ∧
    Halfway64 tenth64 sevenTenths64 ≠ round64 (round64 (tenth64 + sevenTenths64) / 2) ∧
    Halfway64 tenth64 sevenTenths64 - tenth64
      ≠ sevenTenths64 - Halfway64 tenth64 sevenTenths64 ∧
    round64 tiny64 = tiny64 ∧
    (SetFrom2Pointables64 { Id := 10, HandId := 1, TipPosition := (1, 0, 0) }
        { Id := 11, HandId := 1, TipPosition := (tiny64, 0, 0) }).X
      ≠ (SetFrom2Pointables64 { Id := 11, HandId := 1, TipPosition := (tiny64, 0, 0) }
        { Id := 10, HandId := 1, TipPosition := (1, 0, 0) }).X := by
  refine ⟨by decide!, by decide!, by decide!, by decide!, by decide!, by decide!, by decide!,
    by decide!, by decide!, by decide!⟩

end PinchGo
